import Mathlib

/-!
# Verification of the goverdrive track/vehicle simulator core

A shallow embedding, over exact real arithmetic, of the core geometry and
simulation code of the goverdrive repository:

* `phys`  — units, angle normalization, Cartesian/polar points and poses
            (`phys/units.go`, `phys/coord.go`);
* `track` — road pieces, tracks, track coordinates, track regions
            (`robo/track/*.go`);
* `robo`  — vehicles, the ideal simulator tick, the collision detector
            (`robo/vehicle.go`, `robo/sim.go`, collision detector file).

Go's `float64` values are modelled as real numbers (`ℝ`), so every theorem
below is about the exact-arithmetic semantics of the code.  Go loops that
repeatedly add or subtract a fixed quantity are modelled by well-founded
recursion with the same body; Go panics on violated preconditions are
modelled either by an `Option` result (`none` = panic) where a claim is
about the panic itself, or by stating theorems under the documented
precondition.
-/

namespace phys

/-- `phys.SimTime`: simulation time in integer nanoseconds (Go `uint64`). -/
abbrev SimTime := ℕ

/-- `phys.Meters` (Go `float64`), modelled as `ℝ`. -/
abbrev Meters := ℝ

/-- `phys.MetersPerSec` (Go `float64`), modelled as `ℝ`. -/
abbrev MetersPerSec := ℝ

/-- `phys.MetersPerSec2` (Go `float64`), modelled as `ℝ`. -/
abbrev MetersPerSec2 := ℝ

/-- `phys.Radians` (Go `float64`), modelled as `ℝ`. -/
abbrev Radians := ℝ

/-- `phys.Radians90DegreeTurnR = -(pi / 2)`. -/
noncomputable def Radians90DegreeTurnR : Radians := -(Real.pi / 2)

/-- `phys.Radians90DegreeTurnL = +(pi / 2)`. -/
noncomputable def Radians90DegreeTurnL : Radians := Real.pi / 2

/-- `phys.isNear(v1, v2, tolerance)`: `|v1 - v2| <= |tolerance|`. -/
def isNear (v1 v2 tolerance : ℝ) : Prop := |v1 - v2| ≤ |tolerance|

/-- `phys.MetersAreNear`. -/
def MetersAreNear (m1 m2 tolerance : Meters) : Prop := isNear m1 m2 tolerance

/-- `phys.MetersPerSecAreNear`. -/
def MetersPerSecAreNear (m1 m2 tolerance : MetersPerSec) : Prop := isNear m1 m2 tolerance

/-- `phys.RadiansAreNear`. -/
def RadiansAreNear (a1 a2 tolerance : Radians) : Prop := isNear a1 a2 tolerance

/-- First loop of `phys.NormalizeRadians`: `for ; a < -Pi; a += 2*Pi`. -/
noncomputable def normRadUp (a : ℝ) : ℝ :=
  if a < -Real.pi then normRadUp (a + 2 * Real.pi) else a
termination_by (⌈(-Real.pi - a) / (2 * Real.pi)⌉).toNat
decreasing_by
  have hpi : (0:ℝ) < 2 * Real.pi := by positivity
  have hx : (0:ℝ) < (-Real.pi - a) / (2 * Real.pi) := by
    apply div_pos _ hpi
    linarith
  have harg : (-Real.pi - (a + 2 * Real.pi)) / (2 * Real.pi)
      = (-Real.pi - a) / (2 * Real.pi) - 1 := by
    field_simp
    ring
  have h1 : (1:ℤ) ≤ ⌈(-Real.pi - a) / (2 * Real.pi)⌉ := by
    exact_mod_cast Int.le_ceil_iff.mpr (by simpa using hx)
  rw [harg, Int.ceil_sub_one]
  omega

/-- Second loop of `phys.NormalizeRadians`: `for ; a > +Pi; a -= 2*Pi`. -/
noncomputable def normRadDown (a : ℝ) : ℝ :=
  if a > Real.pi then normRadDown (a - 2 * Real.pi) else a
termination_by (⌈(a - Real.pi) / (2 * Real.pi)⌉).toNat
decreasing_by
  have hpi : (0:ℝ) < 2 * Real.pi := by positivity
  have hx : (0:ℝ) < (a - Real.pi) / (2 * Real.pi) := by
    apply div_pos _ hpi
    linarith
  have harg : ((a - 2 * Real.pi) - Real.pi) / (2 * Real.pi)
      = (a - Real.pi) / (2 * Real.pi) - 1 := by
    field_simp
    ring
  have h1 : (1:ℤ) ≤ ⌈(a - Real.pi) / (2 * Real.pi)⌉ := by
    exact_mod_cast Int.le_ceil_iff.mpr (by simpa using hx)
  rw [harg, Int.ceil_sub_one]
  omega

/-- `phys.NormalizeRadians`: adjust an angle into the range `[-Pi, +Pi]`
by the two correction loops of the Go source. -/
noncomputable def NormalizeRadians (a : Radians) : Radians :=
  normRadDown (normRadUp a)

theorem normRadUp_of_ge (a : ℝ) (h : -Real.pi ≤ a) : normRadUp a = a := by
  rw [normRadUp]
  simp [not_lt.mpr h]

theorem normRadDown_of_le (a : ℝ) (h : a ≤ Real.pi) : normRadDown a = a := by
  rw [normRadDown]
  simp [not_lt.mpr h]

theorem normRadUp_ge (a : ℝ) : -Real.pi ≤ normRadUp a := by
  induction a using normRadUp.induct with
  | case1 a h ih => rw [normRadUp, if_pos h]; exact ih
  | case2 a h => rw [normRadUp, if_neg h]; exact le_of_not_lt h

theorem normRadUp_le (a : ℝ) (h : a ≤ Real.pi) : normRadUp a ≤ Real.pi := by
  induction a using normRadUp.induct with
  | case1 a h1 ih =>
      rw [normRadUp, if_pos h1]
      have hpi : (0:ℝ) < Real.pi := Real.pi_pos
      exact ih (by linarith)
  | case2 a h1 => rw [normRadUp, if_neg h1]; exact h

theorem normRadDown_le_pi (a : ℝ) : normRadDown a ≤ Real.pi := by
  induction a using normRadDown.induct with
  | case1 a h ih => rw [normRadDown, if_pos h]; exact ih
  | case2 a h => rw [normRadDown, if_neg h]; exact le_of_not_lt h

theorem normRadDown_ge (a : ℝ) (h : -Real.pi ≤ a) : -Real.pi ≤ normRadDown a := by
  induction a using normRadDown.induct with
  | case1 a h1 ih =>
      rw [normRadDown, if_pos h1]
      have hpi : (0:ℝ) < Real.pi := Real.pi_pos
      exact ih (by linarith)
  | case2 a h1 => rw [normRadDown, if_neg h1]; exact h

theorem normRadUp_shift (a : ℝ) : ∃ k : ℤ, normRadUp a = a + 2 * Real.pi * k := by
  induction a using normRadUp.induct with
  | case1 a h ih =>
      obtain ⟨k, hk⟩ := ih
      exact ⟨k + 1, by rw [normRadUp, if_pos h, hk]; push_cast; ring⟩
  | case2 a h => exact ⟨0, by rw [normRadUp, if_neg h]; push_cast; ring⟩

theorem normRadDown_shift (a : ℝ) : ∃ k : ℤ, normRadDown a = a + 2 * Real.pi * k := by
  induction a using normRadDown.induct with
  | case1 a h ih =>
      obtain ⟨k, hk⟩ := ih
      exact ⟨k - 1, by rw [normRadDown, if_pos h, hk]; push_cast; ring⟩
  | case2 a h => exact ⟨0, by rw [normRadDown, if_neg h]; push_cast; ring⟩

/-- `NormalizeRadians` lands in `[-pi, pi]`. -/
theorem NormalizeRadians_mem (a : ℝ) :
    -Real.pi ≤ NormalizeRadians a ∧ NormalizeRadians a ≤ Real.pi :=
  ⟨normRadDown_ge _ (normRadUp_ge a), normRadDown_le_pi _⟩

/-- `NormalizeRadians` changes its argument by an integer multiple of `2*pi`. -/
theorem NormalizeRadians_shift (a : ℝ) :
    ∃ k : ℤ, NormalizeRadians a = a + 2 * Real.pi * k := by
  obtain ⟨k1, h1⟩ := normRadUp_shift a
  obtain ⟨k2, h2⟩ := normRadDown_shift (normRadUp a)
  exact ⟨k1 + k2, by rw [NormalizeRadians, h2, h1]; push_cast; ring⟩

/-- `NormalizeRadians` is the identity on `[-pi, pi]`. -/
theorem NormalizeRadians_of_mem (a : ℝ) (h1 : -Real.pi ≤ a) (h2 : a ≤ Real.pi) :
    NormalizeRadians a = a := by
  rw [NormalizeRadians, normRadUp_of_ge a h1, normRadDown_of_le a h2]

theorem cos_normalizeRadians (a : ℝ) : Real.cos (NormalizeRadians a) = Real.cos a := by
  obtain ⟨k, hk⟩ := NormalizeRadians_shift a
  rw [hk]
  have : a + 2 * Real.pi * k = a + k * (2 * Real.pi) := by ring
  rw [this, Real.cos_add_int_mul_two_pi]

theorem sin_normalizeRadians (a : ℝ) : Real.sin (NormalizeRadians a) = Real.sin a := by
  obtain ⟨k, hk⟩ := NormalizeRadians_shift a
  rw [hk]
  have : a + 2 * Real.pi * k = a + k * (2 * Real.pi) := by ring
  rw [this, Real.sin_add_int_mul_two_pi]

/-- `phys.Point`: a point in Cartesian space. -/
structure Point where
  X : Meters
  Y : Meters

/-- `phys.Pose`: a location plus an orientation `Theta`. -/
structure Pose extends Point where
  Theta : Radians

/-- `phys.PolarPoint`: radius + angle representation of a point. -/
structure PolarPoint where
  R : Meters
  A : Radians

/-- `math.Atan2(y, x)` of the Go standard library, modelled as the complex
argument of `x + y*i`, which agrees with `atan2` on `(-pi, pi]`. -/
noncomputable def atan2 (y x : ℝ) : ℝ := Complex.arg ⟨x, y⟩

/-- `phys.Point.ToPolarPoint`. -/
noncomputable def Point.ToPolarPoint (p : Point) : PolarPoint :=
  { R := Real.sqrt (p.X * p.X + p.Y * p.Y)
    A := NormalizeRadians (atan2 p.Y p.X) }

/-- `phys.PolarPoint.ToPoint`. -/
noncomputable def PolarPoint.ToPoint (pp : PolarPoint) : Point :=
  let a := NormalizeRadians pp.A
  { X := pp.R * Real.cos a
    Y := pp.R * Real.sin a }

/-- `phys.Pose.AdvancePose`: advance `p1` by `p2`, with `p2` interpreted in
`p1`'s local frame (translation through a polar round-trip, then rotation). -/
noncomputable def Pose.AdvancePose (p1 p2 : Pose) : Pose :=
  let pp0 := Point.ToPolarPoint p2.toPoint
  let pp : PolarPoint := { R := pp0.R, A := NormalizeRadians (p1.Theta + pp0.A) }
  let p := pp.ToPoint
  { X := p.X + p1.X
    Y := p.Y + p1.Y
    Theta := NormalizeRadians (p1.Theta + p2.Theta) }

/-- `phys.Pose.RelativeTo`: express `p1` in `p2`'s frame of reference. -/
noncomputable def Pose.RelativeTo (p1 p2 : Pose) : Pose :=
  let xlatePoint : Point := { X := p1.X - p2.X, Y := p1.Y - p2.Y }
  let pp0 := xlatePoint.ToPolarPoint
  let pp : PolarPoint := { R := pp0.R, A := NormalizeRadians (pp0.A - p2.Theta) }
  let p := pp.ToPoint
  { X := p.X
    Y := p.Y
    Theta := NormalizeRadians (p1.Theta - p2.Theta) }

theorem sqrt_mul_cos_atan2 (x y θ : ℝ) :
    Real.sqrt (x * x + y * y) * Real.cos (θ + atan2 y x)
      = Real.cos θ * x - Real.sin θ * y := by
  by_cases h : (⟨x, y⟩ : ℂ) = 0
  · have hx : x = 0 := congrArg Complex.re h
    have hy : y = 0 := congrArg Complex.im h
    simp [hx, hy]
  · have habs : Complex.abs ⟨x, y⟩ = Real.sqrt (x * x + y * y) := by
      rw [Complex.abs_apply, Complex.normSq_mk]
    have hcos : Real.cos (atan2 y x) = x / Real.sqrt (x * x + y * y) := by
      rw [atan2, Complex.cos_arg h, habs]
    have hsin : Real.sin (atan2 y x) = y / Real.sqrt (x * x + y * y) := by
      rw [atan2, Complex.sin_arg, habs]
    have hpos : 0 < Real.sqrt (x * x + y * y) := by
      rw [← habs]
      exact AbsoluteValue.pos Complex.abs h
    rw [Real.cos_add, hcos, hsin]
    field_simp

theorem sqrt_mul_sin_atan2 (x y θ : ℝ) :
    Real.sqrt (x * x + y * y) * Real.sin (θ + atan2 y x)
      = Real.sin θ * x + Real.cos θ * y := by
  by_cases h : (⟨x, y⟩ : ℂ) = 0
  · have hx : x = 0 := congrArg Complex.re h
    have hy : y = 0 := congrArg Complex.im h
    simp [hx, hy]
  · have habs : Complex.abs ⟨x, y⟩ = Real.sqrt (x * x + y * y) := by
      rw [Complex.abs_apply, Complex.normSq_mk]
    have hcos : Real.cos (atan2 y x) = x / Real.sqrt (x * x + y * y) := by
      rw [atan2, Complex.cos_arg h, habs]
    have hsin : Real.sin (atan2 y x) = y / Real.sqrt (x * x + y * y) := by
      rw [atan2, Complex.sin_arg, habs]
    have hpos : 0 < Real.sqrt (x * x + y * y) := by
      rw [← habs]
      exact AbsoluteValue.pos Complex.abs h
    rw [Real.sin_add, hcos, hsin]
    field_simp

/-- Closed form of `AdvancePose`: the polar round-trip is, in exact
arithmetic, rotation of `p2`'s offset by `p1.Theta` plus translation. -/
theorem Pose.AdvancePose_eq (p1 p2 : Pose) :
    p1.AdvancePose p2 =
      { X := p1.X + (Real.cos p1.Theta * p2.X - Real.sin p1.Theta * p2.Y)
        Y := p1.Y + (Real.sin p1.Theta * p2.X + Real.cos p1.Theta * p2.Y)
        Theta := NormalizeRadians (p1.Theta + p2.Theta) } := by
  rw [Pose.AdvancePose]
  simp only [PolarPoint.ToPoint, Point.ToPolarPoint]
  have hc : ∀ b : ℝ,
      Real.cos (NormalizeRadians (NormalizeRadians (p1.Theta + NormalizeRadians b)))
      = Real.cos (p1.Theta + b) := by
    intro b
    rw [cos_normalizeRadians, cos_normalizeRadians]
    obtain ⟨k, hk⟩ := NormalizeRadians_shift b
    rw [hk]
    have : p1.Theta + (b + 2 * Real.pi * k) = (p1.Theta + b) + k * (2 * Real.pi) := by ring
    rw [this, Real.cos_add_int_mul_two_pi]
  have hs : ∀ b : ℝ,
      Real.sin (NormalizeRadians (NormalizeRadians (p1.Theta + NormalizeRadians b)))
      = Real.sin (p1.Theta + b) := by
    intro b
    rw [sin_normalizeRadians, sin_normalizeRadians]
    obtain ⟨k, hk⟩ := NormalizeRadians_shift b
    rw [hk]
    have : p1.Theta + (b + 2 * Real.pi * k) = (p1.Theta + b) + k * (2 * Real.pi) := by ring
    rw [this, Real.sin_add_int_mul_two_pi]
  congr 2
  · rw [hc (atan2 p2.Y p2.X), sqrt_mul_cos_atan2]
    ring
  · rw [hs (atan2 p2.Y p2.X), sqrt_mul_sin_atan2]
    ring

/-- Closed form of `RelativeTo`: rotate the displacement by `-p2.Theta`. -/
theorem Pose.RelativeTo_eq (p1 p2 : Pose) :
    p1.RelativeTo p2 =
      { X := Real.cos p2.Theta * (p1.X - p2.X) + Real.sin p2.Theta * (p1.Y - p2.Y)
        Y := -Real.sin p2.Theta * (p1.X - p2.X) + Real.cos p2.Theta * (p1.Y - p2.Y)
        Theta := NormalizeRadians (p1.Theta - p2.Theta) } := by
  rw [Pose.RelativeTo]
  simp only [PolarPoint.ToPoint, Point.ToPolarPoint]
  have hc : ∀ b : ℝ,
      Real.cos (NormalizeRadians (NormalizeRadians (NormalizeRadians b - p2.Theta)))
      = Real.cos (-p2.Theta + b) := by
    intro b
    rw [cos_normalizeRadians, cos_normalizeRadians]
    obtain ⟨k, hk⟩ := NormalizeRadians_shift b
    rw [hk]
    have : b + 2 * Real.pi * k - p2.Theta = (-p2.Theta + b) + k * (2 * Real.pi) := by ring
    rw [this, Real.cos_add_int_mul_two_pi]
  have hs : ∀ b : ℝ,
      Real.sin (NormalizeRadians (NormalizeRadians (NormalizeRadians b - p2.Theta)))
      = Real.sin (-p2.Theta + b) := by
    intro b
    rw [sin_normalizeRadians, sin_normalizeRadians]
    obtain ⟨k, hk⟩ := NormalizeRadians_shift b
    rw [hk]
    have : b + 2 * Real.pi * k - p2.Theta = (-p2.Theta + b) + k * (2 * Real.pi) := by ring
    rw [this, Real.sin_add_int_mul_two_pi]
  congr 2
  · rw [hc (atan2 (p1.Y - p2.Y) (p1.X - p2.X)), sqrt_mul_cos_atan2,
      Real.cos_neg, Real.sin_neg]
    ring
  · rw [hs (atan2 (p1.Y - p2.Y) (p1.X - p2.X)), sqrt_mul_sin_atan2,
      Real.cos_neg, Real.sin_neg]

end phys

namespace track

/-- `track.TrackMetersAreEqualTol = 1e-6`. -/
def TrackMetersAreEqualTol : phys.Meters := 1e-6

/-- `track.TrackRadiansAreEqualTol = 1e-3`. -/
def TrackRadiansAreEqualTol : phys.Radians := 1e-3

/-- `track.TrackLenModStartLong = 0.34`. -/
def TrackLenModStartLong : phys.Meters := 0.34

/-- `track.TrackLenModStartShort = 0.22`. -/
def TrackLenModStartShort : phys.Meters := 0.22

/-- `track.TrackLenModStraight = 0.56`. -/
def TrackLenModStraight : phys.Meters := 0.56

/-- `track.TrackLenModCurve = (pi/2) * (TrackLenModStraight / 2)`. -/
noncomputable def TrackLenModCurve : phys.Meters :=
  (Real.pi / 2) * (TrackLenModStraight / 2)

/-- `track.RoadPiece` (`roadpiece.go`): a straight or circular-arc segment
used to define a track.  `cenLen` is the path length at road center,
`dAngle` the angle change when driving through the piece (`0` = straight,
`+pi/2` = left turn, etc). -/
structure RoadPiece where
  cenLen : phys.Meters
  dAngle : phys.Radians

open Classical in
/-- `track.NewRoadPiece(cenLen, dAngle)`: Go panics (modelled as `none`)
unless `cenLen > 0` and
`Radians90DegreeTurnR <= dAngle <= Radians90DegreeTurnL`. -/
noncomputable def NewRoadPiece (cenLen : phys.Meters) (dAngle : phys.Radians) :
    Option RoadPiece :=
  if cenLen ≤ 0 then none
  else if dAngle > phys.Radians90DegreeTurnL ∨ dAngle < phys.Radians90DegreeTurnR then none
  else some { cenLen := cenLen, dAngle := dAngle }

/-- `RoadPiece.CenLen()`. -/
def RoadPiece.CenLen (rp : RoadPiece) : phys.Meters := rp.cenLen

/-- `RoadPiece.DAngle()`. -/
def RoadPiece.DAngle (rp : RoadPiece) : phys.Radians := rp.dAngle

/-- `RoadPiece.IsStraight()`: `rp.dAngle == 0`. -/
def RoadPiece.IsStraight (rp : RoadPiece) : Prop := rp.dAngle = 0

/-- `RoadPiece.Len(cofs)`: the path length of the road piece at center
offset `cofs`: `d := cenLen; d -= cofs * dAngle`. -/
def RoadPiece.Len (rp : RoadPiece) (cofs : phys.Meters) : phys.Meters :=
  rp.cenLen - cofs * rp.dAngle

open Classical in
/-- `RoadPiece.CurveRadius(cofs)`: the curve radius of the road piece at
center offset `cofs`; straight pieces, which have no curvature, return `0`.
The road-center radius is `cenLen / |dAngle|`, with `+cofs` on a right
curve and `-cofs` on a left curve. -/
noncomputable def RoadPiece.CurveRadius (rp : RoadPiece) (cofs : phys.Meters) : phys.Meters :=
  if rp.IsStraight then 0
  else if rp.dAngle < 0 then rp.cenLen / |rp.dAngle| + cofs
  else rp.cenLen / |rp.dAngle| - cofs

open Classical in
/-- `RoadPiece.DeltaPose()`: the change in pose when travelling through the
piece, assuming the canonical starting pose (origin, facing right): a
straight translation, or a polar point on the arc circle shifted by
`±CurveRadius(0)` in `Y`. -/
noncomputable def RoadPiece.DeltaPose (rp : RoadPiece) : phys.Pose :=
  if rp.IsStraight then { X := rp.cenLen, Y := 0, Theta := 0 }
  else
    let rc := rp.CurveRadius 0
    let angle := rp.cenLen / rc
    if rp.dAngle > 0 then
      let p := ({ R := rc, A := -(Real.pi / 2) + angle } : phys.PolarPoint).ToPoint
      { X := p.X, Y := p.Y + rc, Theta := rp.dAngle }
    else
      let p := ({ R := rc, A := Real.pi / 2 - angle } : phys.PolarPoint).ToPoint
      { X := p.X, Y := p.Y - rc, Theta := rp.dAngle }

/-- `track.Point`: a position in track coordinate space
(`Dofs` = distance offset from the finish line, `Cofs` = center offset). -/
structure Point where
  Dofs : phys.Meters
  Cofs : phys.Meters

/-- `track.Pose`: track position plus orientation relative to the trackwise
driving direction at that point. -/
structure Pose extends Point where
  DAngle : phys.Radians

/-- `track.Vel`: velocity in track coordinates. -/
structure Vel where
  D : phys.MetersPerSec
  C : phys.MetersPerSec

/-- `track.Track`: a physical track.  `entryPoses` and `entryDofs` have one
entry per road piece plus a final entry for the full lap. -/
structure Track where
  width : phys.Meters
  maxCofs : phys.Meters
  pieces : List RoadPiece
  entryPoses : List phys.Pose
  entryDofs : List phys.Meters
  minCorner : phys.Point
  maxCorner : phys.Point

/-- The construction part of `track.NewTrack` (after its input validation):
precompute per-piece entry distance offsets and entry poses, and the
bounding corners of the world.  Go's zero-valued `minCorner`/`maxCorner`
start at the origin. -/
noncomputable def mkTrack (width maxCofs : phys.Meters) (pieces : List RoadPiece) : Track :=
  let entryDofs := pieces.scanl (fun d rp => d + rp.Len 0) 0
  let pose0 : phys.Pose := { X := 0, Y := 0, Theta := 0 }
  let entryPoses := pieces.scanl (fun p rp => p.AdvancePose rp.DeltaPose) pose0
  let corners := (List.range pieces.length).foldl
    (fun (mc : phys.Point × phys.Point) i =>
      (List.range 2).foldl
        (fun (mc : phys.Point × phys.Point) j =>
          let deltaPose : phys.Pose :=
            { X := 0, Y := -width / 2 + (j : ℝ) * width, Theta := 0 }
          let edge := (entryPoses.getD i pose0).AdvancePose deltaPose
          ({ X := if edge.X < mc.1.X then edge.X else mc.1.X
             Y := if edge.Y < mc.1.Y then edge.Y else mc.1.Y },
           { X := if edge.X > mc.2.X then edge.X else mc.2.X
             Y := if edge.Y > mc.2.Y then edge.Y else mc.2.Y })) mc)
    ({ X := 0, Y := 0 }, { X := 0, Y := 0 })
  { width := width
    maxCofs := maxCofs
    pieces := pieces
    entryPoses := entryPoses
    entryDofs := entryDofs
    minCorner := corners.1
    maxCorner := corners.2 }

open Classical in
/-- `track.NewTrack`: validate the inputs, build the track, and check that
the lap closes (the Go version also returns the partially-built track
alongside the "not a loop" error; callers that ignore the error use it, so
the construction itself is available separately as `mkTrack`). -/
noncomputable def NewTrack (width maxCofs : phys.Meters) (pieces : List RoadPiece) :
    Except String Track :=
  if pieces.length < 4 then .error "Track has too few road pieces"
  else if width ≤ 0 then .error "Invalid track width"
  else
    let maxCofs := if maxCofs = 0 then width / 2 else maxCofs
    if maxCofs < 0 then .error "maxCofs invalid; must be > 0"
    else
      let t := mkTrack width maxCofs pieces
      let pose0 : phys.Pose := { X := 0, Y := 0, Theta := 0 }
      let beg := t.entryPoses.getD 0 pose0
      let fin := t.entryPoses.getD pieces.length pose0
      if phys.RadiansAreNear beg.Theta fin.Theta TrackRadiansAreEqualTol ∧
         phys.MetersAreNear beg.X fin.X TrackMetersAreEqualTol ∧
         phys.MetersAreNear beg.Y fin.Y TrackMetersAreEqualTol then
        .ok t
      else .error "Track is not a loop"

/-- `Track.Width()`. -/
def Track.Width (t : Track) : phys.Meters := t.width

/-- `Track.MaxCofs()`. -/
def Track.MaxCofs (t : Track) : phys.Meters := t.maxCofs

/-- `Track.NumRp()`. -/
def Track.NumRp (t : Track) : ℕ := t.pieces.length

/-- `Track.CenLen()`: the track length along road center,
`entryDofs[len(pieces)]`. -/
def Track.CenLen (t : Track) : phys.Meters := t.entryDofs.getD t.pieces.length 0

/-- `Track.Len(cofs)`: total driving path length at lateral offset `cofs`. -/
noncomputable def Track.Len (t : Track) (cofs : phys.Meters) : phys.Meters :=
  t.pieces.foldl (fun len rp => len + rp.Len cofs) 0

/-- `Track.Rp(i)`: road piece lookup.  Go panics on an out-of-range index
(`assertValidRpi`); all uses below are in range. -/
def Track.Rp (t : Track) (i : ℕ) : RoadPiece := t.pieces.getD i { cenLen := 0, dAngle := 0 }

/-- The descending search loop of `Track.RpiAndRpDofs`:
`for ; (rpi > 0) && (t.entryDofs[rpi] > dofs); rpi--`. -/
noncomputable def rpiSearch (entryDofs : List ℝ) (dofs : ℝ) : ℕ → ℕ
  | 0 => 0
  | n + 1 => if entryDofs.getD (n + 1) 0 > dofs then rpiSearch entryDofs dofs n else n + 1

/-- `Track.RpiAndRpDofs(dofs)`: map a distance offset to a road piece index
and its local road-center offset, clamping a slight arithmetic overshoot to
the piece length.  Precondition (Go `assertValidDofs`, panics otherwise):
`0 <= dofs <= t.CenLen()`. -/
noncomputable def Track.RpiAndRpDofs (t : Track) (dofs : phys.Meters) : ℕ × phys.Meters :=
  let rpi := rpiSearch t.entryDofs dofs (t.pieces.length - 1)
  let rpDofs := dofs - t.entryDofs.getD rpi 0
  let rpDofs := if rpDofs > (t.Rp rpi).CenLen then (t.Rp rpi).CenLen else rpDofs
  (rpi, rpDofs)

/-- First loop of `Track.NormalizeDofs`: `for ; dofs < 0; dofs += CenLen`.
The `0 < len` guard makes the loop total in Lean; with a non-positive
length the Go loop would not terminate, and `NewTrack` guarantees a
positive length. -/
noncomputable def dofsUp (len d : ℝ) : ℝ :=
  if 0 < len ∧ d < 0 then dofsUp len (d + len) else d
termination_by (⌈-d / len⌉).toNat
decreasing_by
  obtain ⟨hlen, hd0⟩ := ‹0 < len ∧ d < 0›
  have hd := hd0
  have hx : (0:ℝ) < -d / len := div_pos (by linarith) hlen
  have harg : -(d + len) / len = -d / len - 1 := by
    field_simp
    ring
  have h1 : (1:ℤ) ≤ ⌈-d / len⌉ := by
    exact_mod_cast Int.le_ceil_iff.mpr (by simpa using hx)
  rw [harg, Int.ceil_sub_one]
  omega

/-- Second loop of `Track.NormalizeDofs`: `for ; dofs >= CenLen; dofs -= CenLen`,
with the same totality guard as `dofsUp`. -/
noncomputable def dofsDown (len d : ℝ) : ℝ :=
  if 0 < len ∧ len ≤ d then dofsDown len (d - len) else d
termination_by (⌈d / len⌉).toNat
decreasing_by
  obtain ⟨hlen, hd0⟩ := ‹0 < len ∧ len ≤ d›
  have hd := hd0
  have hx : (0:ℝ) < d / len := div_pos (by linarith) hlen
  have harg : (d - len) / len = d / len - 1 := by
    field_simp
  have h1 : (1:ℤ) ≤ ⌈d / len⌉ := by
    exact_mod_cast Int.le_ceil_iff.mpr (by simpa using hx)
  rw [harg, Int.ceil_sub_one]
  omega

/-- `Track.NormalizeDofs(dofs)`: adjust by whole track lengths until
`0 <= dofs < t.CenLen()`. -/
noncomputable def Track.NormalizeDofs (t : Track) (dofs : phys.Meters) : phys.Meters :=
  dofsDown t.CenLen (dofsUp t.CenLen dofs)

/-- `Track.DofsDist(dofs1, dofs2)`: shortest cyclic distance between two
distance offsets. -/
noncomputable def Track.DofsDist (t : Track) (dofs1 dofs2 : phys.Meters) : phys.Meters :=
  let dist := |dofs1 - dofs2|
  if dist > t.CenLen / 2 then t.CenLen - dist else dist

/-- `Track.isFacingTrackwise(dangle)`: `|dangle| <= pi/2`.  Go panics when
`|dangle| > pi`; theorems below assume the documented precondition. -/
def Track.isFacingTrackwise (_t : Track) (dangle : phys.Radians) : Prop :=
  |dangle| ≤ Real.pi / 2

open Classical in
/-- `Track.DriveDist(p, dofs)`: driving distance from pose `p` to distance
offset `dofs`, along center offset `p.Cofs`, in the direction `p` faces. -/
noncomputable def Track.DriveDist (t : Track) (p : Pose) (dofs : phys.Meters) : phys.Meters :=
  let pair := if t.isFacingTrackwise p.DAngle then (p.Dofs, dofs) else (dofs, p.Dofs)
  let dofs1 := pair.1
  let dofs2 := pair.2
  let r1 := t.RpiAndRpDofs dofs1
  let r2 := t.RpiAndRpDofs dofs2
  let rpi1 := r1.1
  let rpDofs1 := r1.2
  let rpi2 := r2.1
  let rpDofs2 := r2.2
  if rpi1 = rpi2 ∧ dofs2 ≥ dofs1 then
    let dist := dofs2 - dofs1
    let rp := t.Rp rpi1
    if rp.IsStraight then dist
    else dist * (rp.CurveRadius p.Cofs / rp.CurveRadius 0)
  else
    let rpCount := (((rpi2 : ℤ) - (rpi1 : ℤ))
      + (if (rpi2 : ℤ) ≤ (rpi1 : ℤ) then (t.NumRp : ℤ) else 0)).toNat
    let dist := (List.range rpCount).foldl
      (fun dist i =>
        let j0 := i + rpi1
        let j := if j0 ≥ t.NumRp then j0 - t.NumRp else j0
        let rp := t.Rp j
        if j = rpi1 then dist + rp.Len p.Cofs * ((rp.CenLen - rpDofs1) / rp.CenLen)
        else dist + rp.Len p.Cofs) 0
    dist + (t.Rp rpi2).Len p.Cofs * (rpDofs2 / (t.Rp rpi2).CenLen)

/-- The per-character piece construction of `track.NewModularTrack` for the
characters after the leading start piece: `S` = straight, `L`/`R` = 90-degree
curves; any other character is an error.  Each `*NewRoadPiece(...)` call of
the Go code uses a fixed valid argument pair, so the constructor never
panics there and the dereferenced piece value is embedded directly (theorem
`newRoadPiece_modular_ok` below shows each call succeeds with exactly this
value). -/
noncomputable def modularPieces : List Char → Except String (List RoadPiece)
  | [] => .ok []
  | c :: rest =>
    match c with
    | 'S' => (modularPieces rest).map
        (({ cenLen := TrackLenModStraight, dAngle := 0 } : RoadPiece) :: ·)
    | 'L' => (modularPieces rest).map
        (({ cenLen := TrackLenModCurve, dAngle := phys.Radians90DegreeTurnL } : RoadPiece) :: ·)
    | 'R' => (modularPieces rest).map
        (({ cenLen := TrackLenModCurve, dAngle := phys.Radians90DegreeTurnR } : RoadPiece) :: ·)
    | _ => .error "Unsupported character in track topology string"

/-- `track.NewModularTrack`: build a track from a topology string of
`S`/`L`/`R` tokens; the first token must be `S` and becomes the short start
piece, and a long start piece is appended at the end.  (Go indexes
`topo[0]` and would panic on an empty string; the empty string is reported
as the same leading-token error here.)  The two `*NewRoadPiece(...)` start
pieces are embedded as their constructed values, as in `modularPieces`. -/
noncomputable def NewModularTrack (width maxCofs : phys.Meters) (topo : List Char) :
    Except String Track :=
  if topo.headD 'X' ≠ 'S' then
    .error "NewModularTrack topo string must start with S"
  else
    match modularPieces (topo.drop 1) with
    | .error msg => .error msg
    | .ok mid =>
        NewTrack width maxCofs
          (({ cenLen := TrackLenModStartShort, dAngle := 0 } : RoadPiece) ::
            (mid ++ [({ cenLen := TrackLenModStartLong, dAngle := 0 } : RoadPiece)]))

/-- `track.Region`: a rectangular sub-region of the track, anchored at its
start corner `c1`. -/
structure Region where
  c1 : Point
  len : phys.Meters
  width : phys.Meters
  track : Track

/-- `track.NewRegion`: validated region construction.  Go panics on invalid
arguments; the panic is modelled as `none`. -/
noncomputable def NewRegion (trk : Track) (c1 : Point) (len width : phys.Meters) :
    Option Region :=
  if c1.Dofs < 0 then none
  else if c1.Dofs ≥ trk.CenLen then none
  else if width ≤ 0 then none
  else if len ≤ 0 then none
  else some { c1 := c1, len := len, width := width, track := trk }

/-- `Region.CrossesFinishLine()`: `c1.Dofs + len >= track.CenLen()`. -/
def Region.CrossesFinishLine (tr : Region) : Prop :=
  tr.c1.Dofs + tr.len ≥ tr.track.CenLen

open Classical in
/-- `Region.ContainsPoint(p)`: point-in-region test, `[C1, C2)` on both
axes, with cyclic wraparound on the distance axis. -/
noncomputable def Region.ContainsPoint (tr : Region) (p : Point) : Bool :=
  if p.Cofs < tr.c1.Cofs ∨ p.Cofs ≥ tr.c1.Cofs + tr.width then false
  else
    let pDofs := tr.track.NormalizeDofs p.Dofs
    if tr.CrossesFinishLine then
      if pDofs ≥ tr.c1.Dofs then true
      else
        let c2Dofs := tr.track.NormalizeDofs (tr.c1.Dofs + tr.len)
        if pDofs < c2Dofs then true else false
    else
      if pDofs < tr.c1.Dofs ∨ pDofs ≥ tr.c1.Dofs + tr.len then false
      else true

end track

namespace robo

/-- `robo.DefUturnRadius = 0.05`. -/
def DefUturnRadius : phys.Meters := 0.05

/-- `robo.VehTypeInfo`: name and physical properties of a vehicle type
(the rendering-only `Color` field is omitted). -/
structure VehTypeInfo where
  FullName : String
  Width : phys.Meters
  Length : phys.Meters
  Mass : ℝ

/-- `robo.vehTypeInfoTable`: the table of known vehicle types. -/
def vehTypeInfoTable (vt : String) : Option VehTypeInfo :=
  match vt with
  | "gs" => some { FullName := "Groundshock", Width := 0.044, Length := 0.08, Mass := 40.0 }
  | "sk" => some { FullName := "Skull", Width := 0.044, Length := 0.08, Mass := 40.0 }
  | "nk" => some { FullName := "Nuke", Width := 0.044, Length := 0.08, Mass := 40.0 }
  | "th" => some { FullName := "Thermo", Width := 0.044, Length := 0.08, Mass := 40.0 }
  | "gu" => some { FullName := "Guardian", Width := 0.044, Length := 0.08, Mass := 40.0 }
  | "bb" => some { FullName := "BigBang", Width := 0.044, Length := 0.08, Mass := 40.0 }
  | "fw" => some { FullName := "Freewheel", Width := 0.044, Length := 0.24, Mass := 40.0 }
  | "xr" => some { FullName := "X52", Width := 0.044, Length := 0.24, Mass := 40.0 }
  | "xi" => some { FullName := "X52Ice", Width := 0.044, Length := 0.24, Mass := 40.0 }
  | "dy" => some { FullName := "Dynamo", Width := 0.044, Length := 0.08, Mass := 40.0 }
  | "mm" => some { FullName := "Mammoth", Width := 0.044, Length := 0.08, Mass := 40.0 }
  | "np" => some { FullName := "NukePhantom", Width := 0.044, Length := 0.08, Mass := 40.0 }
  | _ => none

/-- `robo.Vehicle`: robotics state of one vehicle (the out-of-scope
`lights` sub-object is omitted). -/
structure Vehicle where
  trackLen : phys.Meters
  vtype : String
  odom : phys.Meters
  curPose : track.Pose
  curVel : track.Vel
  cmdDspd : phys.MetersPerSec
  cmdDacl : phys.MetersPerSec2
  desDspd : phys.MetersPerSec
  cmdCofs : phys.Meters
  cmdCspd : phys.MetersPerSec
  desCofs : phys.Meters

/-- `robo.NewVehicle`: create an idle vehicle at the origin.  Go panics on
an unrecognized vehicle type (there is no error return in its signature);
the panic is modelled as `none`. -/
def NewVehicle (vt : String) (trackLen : phys.Meters) : Option Vehicle :=
  match vehTypeInfoTable vt with
  | none => none
  | some _ =>
      some { trackLen := trackLen
             vtype := vt
             odom := 0
             curPose := { Dofs := 0, Cofs := 0, DAngle := 0 }
             curVel := { D := 0, C := 0 }
             cmdDspd := 0
             cmdDacl := 0.1
             desDspd := 0
             cmdCofs := 0
             cmdCspd := 0.1
             desCofs := 0 }

/-- `Vehicle.Width()`: table lookup by the vehicle's type (a missing key
yields Go's zero value). -/
def Vehicle.Width (v : Vehicle) : phys.Meters :=
  ((vehTypeInfoTable v.vtype).map VehTypeInfo.Width).getD 0

/-- `Vehicle.Length()`: table lookup by the vehicle's type. -/
def Vehicle.Length (v : Vehicle) : phys.Meters :=
  ((vehTypeInfoTable v.vtype).map VehTypeInfo.Length).getD 0

/-- `Vehicle.IsFacingTrackwise()`: true iff `|DAngle| <= pi/2`.  Go returns
false for `pi/2 < |DAngle| <= pi` and panics beyond `pi`; theorems that use
this assume the documented precondition `|DAngle| <= pi`. -/
def Vehicle.IsFacingTrackwise (v : Vehicle) : Prop :=
  |v.curPose.DAngle| ≤ Real.pi / 2

/-- `Vehicle.Reposition(p)`: teleport, also resetting the commanded and
desired center offsets. -/
def Vehicle.Reposition (v : Vehicle) (p : track.Pose) : Vehicle :=
  { v with curPose := p, desCofs := p.Cofs, cmdCofs := p.Cofs }

open Classical in
/-- `Vehicle.CmdUturn(radius)`: instantaneous 180-degree U-turn toward road
center: shift the center offset by `2*radius` toward (or past) the center,
and set `DAngle` to `pi` when currently facing trackwise, `0` otherwise. -/
noncomputable def Vehicle.CmdUturn (v : Vehicle) (radius : phys.Meters) : Vehicle :=
  let tp := v.curPose
  let tpCofs := if tp.Cofs < 0 then tp.Cofs + radius * 2 else tp.Cofs - radius * 2
  let tpDAngle : phys.Radians := if v.IsFacingTrackwise then Real.pi else 0
  v.Reposition { Dofs := tp.Dofs, Cofs := tpCofs, DAngle := tpDAngle }

open Classical in
/-- Body of the per-vehicle loop of `IdealSimulator.Tick` (`sim.go`):
advance one vehicle's speed, offsets, pose and odometer by `dt`. -/
noncomputable def tickOneVeh (dt : phys.SimTime) (trk : track.Track) (veh : Vehicle) : Vehicle :=
  let rpi := (trk.RpiAndRpDofs veh.curPose.Dofs).1
  let rp := trk.Rp rpi
  let fdt : ℝ := (dt : ℝ) * 1e-9
  -- Calc new dofs speed (apply constant acceleration toward the command)
  let dspdDelta := fdt * veh.cmdDacl
  let desDspd :=
    if |veh.desDspd - veh.cmdDspd| ≤ dspdDelta then veh.cmdDspd
    else if veh.desDspd < veh.cmdDspd then veh.desDspd + dspdDelta
    else veh.desDspd - dspdDelta
  let curDspd := desDspd
  -- Calc new dofs (constant-acceleration displacement, scaled by the
  -- curve-radius ratio on curved pieces)
  let deltaFwd := curDspd * fdt + (veh.cmdDacl / 2) * fdt * fdt
  let deltaDofs :=
    if rp.CurveRadius 0 ≠ 0 then
      deltaFwd * (rp.CurveRadius 0 / rp.CurveRadius veh.curPose.Cofs)
    else deltaFwd
  -- Calc new hofs (clamp the commanded center offset, move toward it)
  let cmdCofs :=
    if veh.cmdCofs < -trk.MaxCofs then -trk.MaxCofs
    else if veh.cmdCofs > trk.MaxCofs then trk.MaxCofs
    else veh.cmdCofs
  let curCspd := |veh.cmdCspd|
  let maxDeltaCofs := fdt * curCspd
  -- (curHvel, absDeltaCofs, desCofs)
  let hmove : ℝ × ℝ × ℝ :=
    if veh.desCofs < cmdCofs then
      if veh.desCofs + maxDeltaCofs > cmdCofs then (curCspd, cmdCofs - veh.desCofs, cmdCofs)
      else (curCspd, maxDeltaCofs, veh.desCofs + maxDeltaCofs)
    else if veh.desCofs > cmdCofs then
      if veh.desCofs - maxDeltaCofs < cmdCofs then (-curCspd, veh.desCofs - cmdCofs, cmdCofs)
      else (-curCspd, maxDeltaCofs, veh.desCofs - maxDeltaCofs)
    else (0, 0, veh.desCofs)
  let curHvel := hmove.1
  let absDeltaCofs := hmove.2.1
  let desCofs := hmove.2.2
  -- Update the vehicle's state
  let curVelD := if veh.IsFacingTrackwise then curDspd else -curDspd
  let dofs1 :=
    if veh.IsFacingTrackwise then veh.curPose.Dofs + deltaDofs
    else veh.curPose.Dofs - deltaDofs
  let dofs2 := trk.NormalizeDofs dofs1
  -- Update pose angle based on new V and H speeds
  let dangle := if curDspd > 0 then phys.atan2 curHvel curVelD else veh.curPose.DAngle
  -- Update odometer
  let pathLen := Real.sqrt (deltaFwd * deltaFwd + absDeltaCofs * absDeltaCofs)
  { veh with
    desDspd := desDspd
    desCofs := desCofs
    cmdCofs := cmdCofs
    curPose := { Dofs := dofs2, Cofs := desCofs, DAngle := dangle }
    curVel := { D := curVelD, C := curHvel }
    odom := veh.odom + pathLen }

/-- `IdealSimulator.Tick`: advance the state of all vehicles. -/
noncomputable def IdealSimulatorTick (dt : phys.SimTime) (trk : track.Track)
    (vehs : List Vehicle) : List Vehicle :=
  vehs.map (tickOneVeh dt trk)

/-- `robo.VehicleCollisionInfo`: one vehicle's side of a collision; the POI
is in that vehicle's frame of reference. -/
structure VehicleCollisionInfo where
  Id : ℕ
  POI : phys.Point

/-- `robo.CollisionEvent`: the information about a collision at the moment
of impact. -/
structure CollisionEvent where
  ImpactTime : phys.SimTime
  VehInfo : VehicleCollisionInfo × VehicleCollisionInfo

/-- `robo.vehCollisionInputs`: per-vehicle inputs to collision detection. -/
structure vehCollisionInputs where
  dofs : phys.Meters
  pose : phys.Pose
  len : phys.Meters
  width : phys.Meters

/-- `robo.CollisionDetector`: detector state.  The Go maps keyed by
`vehPair` are modelled as functions from index pairs to optional values. -/
structure CollisionDetector where
  maxDimension : ℕ × ℕ → phys.Meters
  curCollisions : ℕ × ℕ → Option CollisionEvent
  newCollisions : ℕ × ℕ → Option CollisionEvent

/-- `robo.NewCollisionDetector`: precompute each ordered pair's maximum
dimension (max over both vehicles' lengths and widths); collision maps
start empty. -/
noncomputable def NewCollisionDetector (_trk : track.Track) (vehs : List Vehicle) :
    CollisionDetector :=
  { maxDimension := fun pr =>
      match vehs[pr.1]?, vehs[pr.2]? with
      | some veh1, some veh2 =>
          if pr.1 < pr.2 then
            max (max veh1.Length veh2.Length) (max veh1.Width veh2.Width)
          else 0
      | _, _ => 0
    curCollisions := fun _ => none
    newCollisions := fun _ => none }

/-- The "Other" vehicle's four corner points in the absolute Cartesian
frame (`calcPointOfImpact`, first step). -/
noncomputable def ovCornersAbs (ov : vehCollisionInputs) : List phys.Point :=
  let ovHalfLen := ov.len / 2
  let ovHalfWid := ov.width / 2
  [(ov.pose.AdvancePose { X := ovHalfLen, Y := ovHalfWid, Theta := 0 }).toPoint,
   (ov.pose.AdvancePose { X := ovHalfLen, Y := -ovHalfWid, Theta := 0 }).toPoint,
   (ov.pose.AdvancePose { X := -ovHalfLen, Y := ovHalfWid, Theta := 0 }).toPoint,
   (ov.pose.AdvancePose { X := -ovHalfLen, Y := -ovHalfWid, Theta := 0 }).toPoint]

open Classical in
/-- One reference-vehicle pass of `calcPointOfImpact`: the Other vehicle's
corners that fall inside the Reference vehicle's rectangle (each kept
corner is recorded in absolute coordinates). -/
noncomputable def cornerHits (rv ov : vehCollisionInputs) : List phys.Point :=
  let rvHalfLen := rv.len / 2
  let rvHalfWid := rv.width / 2
  (ovCornersAbs ov).filter fun cp =>
    let rel := (({ X := cp.X, Y := cp.Y, Theta := 0 } : phys.Pose).RelativeTo rv.pose).toPoint
    if rel.X > rvHalfLen ∨ rel.X < -rvHalfLen ∨ rel.Y > rvHalfWid ∨ rel.Y < -rvHalfWid then
      false
    else true

/-- `robo.calcPointOfImpact`: corner-containment collision test for two
vehicles, run with each vehicle as reference in turn; when colliding, the
point of impact is the average of all detected collision points. -/
noncomputable def calcPointOfImpact (a b : vehCollisionInputs) : Bool × phys.Point :=
  let collisionPoints := cornerHits a b ++ cornerHits b a
  if collisionPoints.length = 0 then (false, { X := 0, Y := 0 })
  else
    let sum := collisionPoints.foldl
      (fun (acc : phys.Point) cp => { X := acc.X + cp.X, Y := acc.Y + cp.Y })
      { X := 0, Y := 0 }
    (true, { X := sum.X / collisionPoints.length, Y := sum.Y / collisionPoints.length })

/-- The ordered pairs `(v0, v1)` with `v0 < v1 < n`, in the iteration order
of the two nested loops of `updateHelper` (`for v0`; `for v1 := v0+1; v1 < n`). -/
def pairList (n : ℕ) : List (ℕ × ℕ) :=
  (List.range n).flatMap fun v0 =>
    (List.range' (v0 + 1) (n - (v0 + 1))).map fun v1 => (v0, v1)

/-- The collision event created by `updateHelper` for a freshly-colliding
pair: stamped with the current simulated time, each vehicle's
point-of-impact expressed in that vehicle's own frame via pose inversion. -/
noncomputable def newCollisionEvent (now : phys.SimTime)
    (inputs : ℕ → vehCollisionInputs) (pr : ℕ × ℕ) : CollisionEvent :=
  let res := calcPointOfImpact (inputs pr.1) (inputs pr.2)
  let impactPose : phys.Pose := { X := res.2.X, Y := res.2.Y, Theta := 0 }
  { ImpactTime := now
    VehInfo :=
      ({ Id := pr.1, POI := (impactPose.RelativeTo (inputs pr.1).pose).toPoint },
       { Id := pr.2, POI := (impactPose.RelativeTo (inputs pr.2).pose).toPoint }) }

open Classical in
/-- The body of the pair loop of `CollisionDetector.updateHelper`:
broad-phase cyclic-distance prune, then the narrow phase and the collision
event lifecycle for one pair. -/
noncomputable def pairStep (now : phys.SimTime) (trk : track.Track)
    (inputs : ℕ → vehCollisionInputs) (cd : CollisionDetector) (pr : ℕ × ℕ) :
    CollisionDetector :=
  let maxDim := cd.maxDimension pr
  if trk.DofsDist (inputs pr.1).dofs (inputs pr.2).dofs > maxDim then
    { cd with curCollisions := fun q => if q = pr then none else cd.curCollisions q }
  else
    let res := calcPointOfImpact (inputs pr.1) (inputs pr.2)
    if res.1 then
      match cd.curCollisions pr with
      | some _ => cd
      | none =>
          let newEvent := newCollisionEvent now inputs pr
          { cd with
            curCollisions := fun q => if q = pr then some newEvent else cd.curCollisions q
            newCollisions := fun q => if q = pr then some newEvent else cd.newCollisions q }
    else
      { cd with curCollisions := fun q => if q = pr then none else cd.curCollisions q }

/-- `CollisionDetector.updateHelper`: run the pair loop over every ordered
pair of the `n` vehicles. -/
noncomputable def updateHelper (now : phys.SimTime) (trk : track.Track) (n : ℕ)
    (inputs : ℕ → vehCollisionInputs) (cd : CollisionDetector) : CollisionDetector :=
  (pairList n).foldl (pairStep now trk inputs) cd

/-- `CollisionDetector.CurCollisions`: all ongoing collision events
(non-destructive query; Go iterates its map, here the pair list). -/
noncomputable def CurCollisions (n : ℕ) (cd : CollisionDetector) : List CollisionEvent :=
  (pairList n).filterMap cd.curCollisions

/-- `CollisionDetector.NewCollisions`: drain and return the events that are
new since the last call. -/
noncomputable def NewCollisions (n : ℕ) (cd : CollisionDetector) :
    List CollisionEvent × CollisionDetector :=
  ((pairList n).filterMap cd.newCollisions,
   { cd with newCollisions := fun _ => none })

end robo

/-! ## Concrete test fixtures

The straight four-piece track below is the one used by the repository's own
`TestDriveDistStraights` (which builds it with `NewTrack` and ignores the
"not a loop" error), plus a square modular-style track that does close, and
a handful of concrete vehicles and collision inputs. -/

/-- A straight road piece of 1 meter: the value `*NewRoadPiece(1, 0)`
(theorem `newRoadPiece_straight1` shows the constructor succeeds with
exactly this value). -/
def rpStraight1 : track.RoadPiece := { cenLen := 1, dAngle := 0 }

/-- Four straight road pieces of 1 meter each. -/
def straight4 : List track.RoadPiece :=
  [rpStraight1, rpStraight1, rpStraight1, rpStraight1]

/-- The straight 4-piece, 1-meter-per-piece test track (width 0.2,
maxCofs 0.1). -/
noncomputable def trk4 : track.Track := track.mkTrack 0.2 0.1 straight4

/-- A 90-degree left curve of center radius 1: the value
`*NewRoadPiece(pi/2, pi/2)` (theorem `newRoadPiece_curveL1` shows the
constructor succeeds with exactly this value). -/
noncomputable def rpCurveL1 : track.RoadPiece :=
  { cenLen := Real.pi / 2, dAngle := Real.pi / 2 }

/-- Four 90-degree left curves of center radius 1: a closed square-ish
loop. -/
noncomputable def sqPieces : List track.RoadPiece :=
  [rpCurveL1, rpCurveL1, rpCurveL1, rpCurveL1]

/-- A vehicle of type `gs` at the origin of the straight test track, at
rest, commanded to forward speed 1 m/s with acceleration 2 m/s^2. -/
def vehC1 : robo.Vehicle :=
  { trackLen := 4
    vtype := "gs"
    odom := 0
    curPose := { Dofs := 0, Cofs := 0, DAngle := 0 }
    curVel := { D := 0, C := 0 }
    cmdDspd := 1
    cmdDacl := 2
    desDspd := 0
    cmdCofs := 0
    cmdCspd := 0.1
    desCofs := 0 }

/-- A vehicle of type `gs` 0.1 m left of road center, facing trackwise. -/
def vehC7 : robo.Vehicle :=
  { trackLen := 4
    vtype := "gs"
    odom := 0
    curPose := { Dofs := 0, Cofs := 0.1, DAngle := 0 }
    curVel := { D := 0, C := 0 }
    cmdDspd := 0
    cmdDacl := 0.1
    desDspd := 0
    cmdCofs := 0.1
    cmdCspd := 0.1
    desCofs := 0.1 }

/-- An idle `gs` vehicle at the origin (length 0.08, width 0.044). -/
def vehGS : robo.Vehicle :=
  { trackLen := 4
    vtype := "gs"
    odom := 0
    curPose := { Dofs := 0, Cofs := 0, DAngle := 0 }
    curVel := { D := 0, C := 0 }
    cmdDspd := 0
    cmdDacl := 0.1
    desDspd := 0
    cmdCofs := 0
    cmdCspd := 0.1
    desCofs := 0 }

/-- Collision inputs: vehicle 0 is a 0.08 x 0.044 rectangle at the origin,
vehicle 1 a 0.04 x 0.02 rectangle at the same pose (fully inside it), both
at distance offset 0. -/
def inputsC2 : ℕ → robo.vehCollisionInputs := fun i =>
  if i = 0 then
    { dofs := 0, pose := { X := 0, Y := 0, Theta := 0 }, len := 0.08, width := 0.044 }
  else
    { dofs := 0, pose := { X := 0, Y := 0, Theta := 0 }, len := 0.04, width := 0.02 }

/-- Detector state for the fresh-overlap scenario: per-pair maximum
dimension 0.08, no current or pending-new collisions. -/
def cdC2 : robo.CollisionDetector :=
  { maxDimension := fun _ => 0.08
    curCollisions := fun _ => none
    newCollisions := fun _ => none }

/-- An arbitrary pre-existing collision event for pair `(0, 1)` stamped at
time 3. -/
def dummyEvent : robo.CollisionEvent :=
  { ImpactTime := 3
    VehInfo := ({ Id := 0, POI := { X := 0, Y := 0 } },
                { Id := 1, POI := { X := 0, Y := 0 } }) }

/-- Collision inputs: two vehicles at distance offsets 0 and 2 on the
straight test track (cyclic separation 2). -/
def inputsC5 : ℕ → robo.vehCollisionInputs := fun i =>
  if i = 0 then
    { dofs := 0, pose := { X := 0, Y := 0, Theta := 0 }, len := 0.08, width := 0.044 }
  else
    { dofs := 2, pose := { X := 0, Y := 0, Theta := 0 }, len := 0.08, width := 0.044 }

/-- A `gs` vehicle commanding a lateral offset of 0.5 m, far beyond the
track's maximum. -/
def vehC10 : robo.Vehicle :=
  { trackLen := 4
    vtype := "gs"
    odom := 0
    curPose := { Dofs := 0, Cofs := 0, DAngle := 0 }
    curVel := { D := 0, C := 0 }
    cmdDspd := 0
    cmdDacl := 0.1
    desDspd := 0
    cmdCofs := 0.5
    cmdCspd := 0.1
    desCofs := 0 }

/-- A current-collision map holding an entry for pair `(0, 1)` only. -/
def curC5 : ℕ × ℕ → Option robo.CollisionEvent :=
  fun q => if q = (0, 1) then some dummyEvent else none

/-! ## Shared evaluation and invariant lemmas -/

theorem phys.NormalizeRadians_zero : phys.NormalizeRadians 0 = 0 :=
  phys.NormalizeRadians_of_mem 0 (by linarith [Real.pi_pos]) Real.pi_pos.le

/-- `NewRoadPiece` succeeds (does not panic) on valid arguments, returning
exactly the piece with those fields. -/
theorem track.NewRoadPiece_ok (cenLen dAngle : ℝ) (h1 : 0 < cenLen)
    (h2 : dAngle ≤ phys.Radians90DegreeTurnL) (h3 : phys.Radians90DegreeTurnR ≤ dAngle) :
    track.NewRoadPiece cenLen dAngle = some { cenLen := cenLen, dAngle := dAngle } := by
  rw [track.NewRoadPiece, if_neg (not_le.mpr h1), if_neg (by push_neg; exact ⟨h2, h3⟩)]

/-- The `*NewRoadPiece(1, 0)` pieces of the repository's straight-track
tests are built without panicking. -/
theorem newRoadPiece_straight1 : track.NewRoadPiece 1 0 = some rpStraight1 :=
  track.NewRoadPiece_ok 1 0 (by norm_num)
    (by rw [phys.Radians90DegreeTurnL]; positivity)
    (by rw [phys.Radians90DegreeTurnR]; linarith [Real.pi_pos])

/-- The `*NewRoadPiece(pi/2, pi/2)` piece of the square fixture track is
built without panicking. -/
theorem newRoadPiece_curveL1 :
    track.NewRoadPiece (Real.pi / 2) (Real.pi / 2) = some rpCurveL1 :=
  track.NewRoadPiece_ok _ _ (by positivity)
    (by rw [phys.Radians90DegreeTurnL])
    (by rw [phys.Radians90DegreeTurnR]; linarith [Real.pi_pos])

/-- Every `*NewRoadPiece(...)` call site of `NewModularTrack` succeeds (no
panic), producing exactly the piece values embedded in `modularPieces` and
`NewModularTrack`. -/
theorem newRoadPiece_modular_ok :
    track.NewRoadPiece track.TrackLenModStartShort 0
        = some { cenLen := track.TrackLenModStartShort, dAngle := 0 } ∧
    track.NewRoadPiece track.TrackLenModStartLong 0
        = some { cenLen := track.TrackLenModStartLong, dAngle := 0 } ∧
    track.NewRoadPiece track.TrackLenModStraight 0
        = some { cenLen := track.TrackLenModStraight, dAngle := 0 } ∧
    track.NewRoadPiece track.TrackLenModCurve phys.Radians90DegreeTurnL
        = some { cenLen := track.TrackLenModCurve, dAngle := phys.Radians90DegreeTurnL } ∧
    track.NewRoadPiece track.TrackLenModCurve phys.Radians90DegreeTurnR
        = some { cenLen := track.TrackLenModCurve, dAngle := phys.Radians90DegreeTurnR } := by
  have hpi := Real.pi_pos
  have hL : (0:ℝ) ≤ phys.Radians90DegreeTurnL := by
    rw [phys.Radians90DegreeTurnL]; linarith
  have hR : phys.Radians90DegreeTurnR ≤ (0:ℝ) := by
    rw [phys.Radians90DegreeTurnR]; linarith
  have hLR : phys.Radians90DegreeTurnR ≤ phys.Radians90DegreeTurnL := le_trans hR hL
  have hcurve : (0:ℝ) < track.TrackLenModCurve := by
    rw [track.TrackLenModCurve, track.TrackLenModStraight]
    positivity
  exact ⟨track.NewRoadPiece_ok _ _ (by norm_num [track.TrackLenModStartShort]) hL hR,
    track.NewRoadPiece_ok _ _ (by norm_num [track.TrackLenModStartLong]) hL hR,
    track.NewRoadPiece_ok _ _ (by norm_num [track.TrackLenModStraight]) hL hR,
    track.NewRoadPiece_ok _ _ hcurve le_rfl hLR,
    track.NewRoadPiece_ok _ _ hcurve hLR le_rfl⟩

theorem track.dofsUp_nonneg (len d : ℝ) : 0 < len → 0 ≤ track.dofsUp len d := by
  induction d using track.dofsUp.induct len with
  | case1 d h ih =>
      intro hlen
      rw [track.dofsUp, if_pos h]
      exact ih hlen
  | case2 d h =>
      intro hlen
      rw [track.dofsUp, if_neg h]
      exact le_of_not_lt (not_and.mp h hlen)

theorem track.dofsUp_of_nonneg (len d : ℝ) (h : 0 ≤ d) : track.dofsUp len d = d := by
  rw [track.dofsUp]
  simp [not_lt.mpr h]

theorem track.dofsDown_nonneg (len d : ℝ) : 0 ≤ d → 0 ≤ track.dofsDown len d := by
  induction d using track.dofsDown.induct len with
  | case1 d h ih =>
      intro _hd
      rw [track.dofsDown, if_pos h]
      exact ih (by linarith [h.1, h.2])
  | case2 d h =>
      intro hd
      rw [track.dofsDown, if_neg h]
      exact hd

theorem track.dofsDown_lt (len d : ℝ) : 0 < len → track.dofsDown len d < len := by
  induction d using track.dofsDown.induct len with
  | case1 d h ih =>
      intro hlen
      rw [track.dofsDown, if_pos h]
      exact ih hlen
  | case2 d h =>
      intro hlen
      rw [track.dofsDown, if_neg h]
      exact lt_of_not_le (not_and.mp h hlen)

theorem track.dofsDown_of_lt (len d : ℝ) (h : d < len) : track.dofsDown len d = d := by
  rw [track.dofsDown]
  simp [not_le.mpr h]

theorem track.dofsDown_step (len d : ℝ) (hlen : 0 < len) (h : len ≤ d) :
    track.dofsDown len d = track.dofsDown len (d - len) := by
  rw [track.dofsDown, if_pos ⟨hlen, h⟩]

/-- `Track.NormalizeDofs` lands in `[0, CenLen)` for a positive-length
track. -/
theorem track.Track.NormalizeDofs_mem (t : track.Track) (d : ℝ) (hlen : 0 < t.CenLen) :
    0 ≤ t.NormalizeDofs d ∧ t.NormalizeDofs d < t.CenLen :=
  ⟨track.dofsDown_nonneg _ _ (track.dofsUp_nonneg _ _ hlen), track.dofsDown_lt _ _ hlen⟩

/-- `Track.NormalizeDofs` is the identity on `[0, CenLen)`. -/
theorem track.Track.NormalizeDofs_of_mem (t : track.Track) (d : ℝ)
    (h0 : 0 ≤ d) (h1 : d < t.CenLen) : t.NormalizeDofs d = d := by
  rw [track.Track.NormalizeDofs, track.dofsUp_of_nonneg _ _ h0, track.dofsDown_of_lt _ _ h1]

/-- **C4**: for all Cartesian poses `p` and `q`, `p.AdvancePose(q).RelativeTo(p)`
equals `q` exactly in position; its heading equals `q`'s heading up to the
normalization of the angle into `[-pi, pi]` (that is, modulo `2*pi`, with
the result lying in `[-pi, pi]`).  Exact real arithmetic subsumes the float
tolerance of the claim. -/
theorem advancePose_relativeTo_roundtrip (p q : phys.Pose) :
    ((p.AdvancePose q).RelativeTo p).X = q.X ∧
    ((p.AdvancePose q).RelativeTo p).Y = q.Y ∧
    (∃ k : ℤ, ((p.AdvancePose q).RelativeTo p).Theta = q.Theta + 2 * Real.pi * k) ∧
    -Real.pi ≤ ((p.AdvancePose q).RelativeTo p).Theta ∧
    ((p.AdvancePose q).RelativeTo p).Theta ≤ Real.pi := by
  rw [phys.Pose.AdvancePose_eq, phys.Pose.RelativeTo_eq]
  have hpyth := Real.sin_sq_add_cos_sq p.Theta
  refine ⟨?_, ?_, ?_, ?_, ?_⟩
  · show Real.cos p.Theta * (p.X + (Real.cos p.Theta * q.X - Real.sin p.Theta * q.Y) - p.X)
      + Real.sin p.Theta * (p.Y + (Real.sin p.Theta * q.X + Real.cos p.Theta * q.Y) - p.Y)
      = q.X
    linear_combination q.X * hpyth
  · show -Real.sin p.Theta * (p.X + (Real.cos p.Theta * q.X - Real.sin p.Theta * q.Y) - p.X)
      + Real.cos p.Theta * (p.Y + (Real.sin p.Theta * q.X + Real.cos p.Theta * q.Y) - p.Y)
      = q.Y
    linear_combination q.Y * hpyth
  · show ∃ k : ℤ, phys.NormalizeRadians (phys.NormalizeRadians (p.Theta + q.Theta) - p.Theta)
      = q.Theta + 2 * Real.pi * k
    obtain ⟨k1, h1⟩ := phys.NormalizeRadians_shift (p.Theta + q.Theta)
    obtain ⟨k2, h2⟩ :=
      phys.NormalizeRadians_shift (phys.NormalizeRadians (p.Theta + q.Theta) - p.Theta)
    refine ⟨k1 + k2, ?_⟩
    rw [h2, h1]
    push_cast
    ring
  · exact (phys.NormalizeRadians_mem _).1
  · exact (phys.NormalizeRadians_mem _).2

/-- **C9**: a simulator tick keeps the distance offset normalized: if a
vehicle's distance offset lies in `[0, CenLen)` before the tick then it
again lies in `[0, CenLen)` after the tick, for any commanded speed,
acceleration, lateral offset and facing direction. -/
theorem tick_keeps_dofs_normalized (dt : phys.SimTime) (trk : track.Track)
    (veh : robo.Vehicle) (h0 : 0 ≤ veh.curPose.Dofs) (h1 : veh.curPose.Dofs < trk.CenLen) :
    0 ≤ (robo.tickOneVeh dt trk veh).curPose.Dofs ∧
      (robo.tickOneVeh dt trk veh).curPose.Dofs < trk.CenLen := by
  have hlen : 0 < trk.CenLen := lt_of_le_of_lt h0 h1
  exact track.Track.NormalizeDofs_mem trk _ hlen

theorem trk4_pieces : trk4.pieces = straight4 := rfl

theorem trk4_entryDofs : trk4.entryDofs = [0, 1, 2, 3, 4] := by
  simp [trk4, track.mkTrack, straight4, rpStraight1, List.scanl, track.RoadPiece.Len]
  norm_num

theorem trk4_cenLen : trk4.CenLen = 4 := by
  rw [track.Track.CenLen, trk4_entryDofs, trk4_pieces]
  rfl

theorem trk4_entryPoses :
    trk4.entryPoses =
      [{ X := 0, Y := 0, Theta := 0 }, { X := 1, Y := 0, Theta := 0 },
       { X := 2, Y := 0, Theta := 0 }, { X := 3, Y := 0, Theta := 0 },
       { X := 4, Y := 0, Theta := 0 }] := by
  simp [trk4, track.mkTrack, straight4, rpStraight1, List.scanl,
    track.RoadPiece.DeltaPose, track.RoadPiece.IsStraight,
    phys.Pose.AdvancePose_eq, Real.cos_zero, Real.sin_zero,
    phys.NormalizeRadians_zero]
  norm_num

theorem trk4_Rp0 : trk4.Rp 0 = rpStraight1 := rfl

theorem trk4_Rp3 : trk4.Rp 3 = rpStraight1 := rfl

/-- Witness for C9 at a concrete input. -/
theorem tick_keeps_dofs_normalized_witness :
    (0:ℝ) ≤ vehGS.curPose.Dofs ∧ vehGS.curPose.Dofs < trk4.CenLen ∧
    (0 ≤ (robo.tickOneVeh 10000000 trk4 vehGS).curPose.Dofs ∧
     (robo.tickOneVeh 10000000 trk4 vehGS).curPose.Dofs < trk4.CenLen) := by
  have h0 : (0:ℝ) ≤ vehGS.curPose.Dofs := by norm_num [vehGS]
  have h1 : vehGS.curPose.Dofs < trk4.CenLen := by
    rw [trk4_cenLen]
    norm_num [vehGS]
  exact ⟨h0, h1, tick_keeps_dofs_normalized 10000000 trk4 vehGS h0 h1⟩

/-- **C3**: the code does NOT satisfy the claim/its own documentation that a
region of length at least the track length covers the whole distance axis.
For the region anchored at `dofs = 3` with length `5` on the 4-meter
straight test track, the normalized far corner is `3 + 5 - 4 - 4 = 0`, so
the point at `dofs = 1` (with in-range center offset `0.5`) is rejected
even though `len = 5 >= CenLen = 4`. -/
theorem region_full_length_gap :
    ∃ tr : track.Region,
      track.NewRegion trk4 { Dofs := 3, Cofs := 0 } 5 1 = some tr ∧
      trk4.CenLen ≤ tr.len ∧
      tr.c1.Cofs ≤ 0.5 ∧ (0.5:ℝ) < tr.c1.Cofs + tr.width ∧
      tr.ContainsPoint { Dofs := 1, Cofs := 0.5 } = false := by
  have hreg : track.NewRegion trk4 { Dofs := 3, Cofs := 0 } 5 1 =
      some { c1 := { Dofs := 3, Cofs := 0 }, len := 5, width := 1, track := trk4 } := by
    rw [track.NewRegion, trk4_cenLen]
    norm_num
  refine ⟨_, hreg, ?_, ?_, ?_, ?_⟩
  · rw [trk4_cenLen]
    norm_num
  · norm_num
  · norm_num
  · have hnorm1 : trk4.NormalizeDofs 1 = 1 :=
      trk4.NormalizeDofs_of_mem 1 (by norm_num) (by rw [trk4_cenLen]; norm_num)
    have hnorm8 : trk4.NormalizeDofs (3 + 5) = 0 := by
      rw [track.Track.NormalizeDofs, trk4_cenLen,
        track.dofsUp_of_nonneg _ _ (by norm_num),
        track.dofsDown_step _ _ (by norm_num) (by norm_num)]
      norm_num
      rw [track.dofsDown_step _ _ (by norm_num) (by norm_num)]
      norm_num
      rw [track.dofsDown_of_lt _ _ (by norm_num)]
    rw [track.Region.ContainsPoint]
    rw [if_neg (by norm_num)]
    rw [if_pos (by rw [track.Region.CrossesFinishLine, trk4_cenLen]; norm_num)]
    simp only [hnorm1, hnorm8]
    rw [if_neg (by norm_num), if_neg (by norm_num)]

/-- **C7** (counterexample): the U-turn does not mirror the lateral offset
about road center: from `Cofs = 0.1` with the default U-turn radius `0.05`
the new offset is `0.1 - 2*0.05 = 0`, not `-0.1`. -/
theorem uturn_does_not_mirror_cofs :
    (vehC7.CmdUturn robo.DefUturnRadius).curPose.Cofs = 0 ∧
    vehC7.curPose.Cofs = 0.1 ∧
    (vehC7.CmdUturn robo.DefUturnRadius).curPose.Cofs ≠ -vehC7.curPose.Cofs := by
  refine ⟨?_, rfl, ?_⟩
  · simp only [robo.Vehicle.CmdUturn, robo.Vehicle.Reposition, robo.DefUturnRadius, vehC7]
    norm_num
  · simp only [robo.Vehicle.CmdUturn, robo.Vehicle.Reposition, robo.DefUturnRadius, vehC7]
    norm_num

/-- **C7** (amended): the U-turn flips the facing classification (`DAngle`
becomes `pi` when the vehicle was facing trackwise, `0` otherwise, so the
classification is inverted) and shifts the lateral offset by `2*radius`
toward (or past) road center; the commanded and desired offsets are reset
to the new offset.  Precondition: `|DAngle| <= pi` (Go panics otherwise). -/
theorem uturn_flips_facing_shifts_cofs (v : robo.Vehicle) (radius : ℝ)
    (hDA : |v.curPose.DAngle| ≤ Real.pi) :
    (v.IsFacingTrackwise →
      (v.CmdUturn radius).curPose.DAngle = Real.pi ∧
      ¬ (v.CmdUturn radius).IsFacingTrackwise) ∧
    (¬ v.IsFacingTrackwise →
      (v.CmdUturn radius).curPose.DAngle = 0 ∧
      (v.CmdUturn radius).IsFacingTrackwise) ∧
    ((v.CmdUturn radius).curPose.Cofs
        = if v.curPose.Cofs < 0 then v.curPose.Cofs + radius * 2
          else v.curPose.Cofs - radius * 2) ∧
    (v.CmdUturn radius).cmdCofs = (v.CmdUturn radius).curPose.Cofs ∧
    (v.CmdUturn radius).desCofs = (v.CmdUturn radius).curPose.Cofs := by
  classical
  have hpi := Real.pi_pos
  refine ⟨?_, ?_, ?_, rfl, rfl⟩
  · intro hf
    constructor
    · simp only [robo.Vehicle.CmdUturn, robo.Vehicle.Reposition, if_pos hf]
    · show ¬ |(if v.IsFacingTrackwise then Real.pi else (0:ℝ))| ≤ Real.pi / 2
      rw [if_pos hf, abs_of_pos hpi]
      intro hcontra
      linarith
  · intro hf
    constructor
    · simp only [robo.Vehicle.CmdUturn, robo.Vehicle.Reposition, if_neg hf]
    · show |(if v.IsFacingTrackwise then Real.pi else (0:ℝ))| ≤ Real.pi / 2
      rw [if_neg hf, abs_zero]
      positivity
  · simp only [robo.Vehicle.CmdUturn, robo.Vehicle.Reposition]

/-- Witness for the amended C7 at a concrete input. -/
theorem uturn_flips_facing_shifts_cofs_witness :
    |vehC7.curPose.DAngle| ≤ Real.pi ∧
    ((vehC7.IsFacingTrackwise →
      (vehC7.CmdUturn 0.05).curPose.DAngle = Real.pi ∧
      ¬ (vehC7.CmdUturn 0.05).IsFacingTrackwise) ∧
    (¬ vehC7.IsFacingTrackwise →
      (vehC7.CmdUturn 0.05).curPose.DAngle = 0 ∧
      (vehC7.CmdUturn 0.05).IsFacingTrackwise) ∧
    ((vehC7.CmdUturn 0.05).curPose.Cofs
        = if vehC7.curPose.Cofs < 0 then vehC7.curPose.Cofs + 0.05 * 2
          else vehC7.curPose.Cofs - 0.05 * 2) ∧
    (vehC7.CmdUturn 0.05).cmdCofs = (vehC7.CmdUturn 0.05).curPose.Cofs ∧
    (vehC7.CmdUturn 0.05).desCofs = (vehC7.CmdUturn 0.05).curPose.Cofs) := by
  have hDA : |vehC7.curPose.DAngle| ≤ Real.pi := by
    have : vehC7.curPose.DAngle = 0 := rfl
    rw [this, abs_zero]
    exact Real.pi_pos.le
  exact ⟨hDA, uturn_flips_facing_shifts_cofs vehC7 0.05 hDA⟩

/-- **C8** (counterexample): `NewVehicle` has no error return; asked for
the unrecognized vehicle type `"zz"` it panics (modelled as `none`) instead
of reporting an explicit failure value to the caller. -/
theorem newVehicle_unknown_type_panics :
    robo.vehTypeInfoTable "zz" = none ∧ robo.NewVehicle "zz" 1 = none :=
  ⟨rfl, rfl⟩

/-- **C8** (amended): the track construction-time validation errors — a bad
topology token, a width that is not positive, a set of pieces that does not
close into a loop — are reported as explicit `error` values to the caller;
an unrecognized vehicle type, in contrast, panics inside `NewVehicle`
(modelled as `none`), since `NewVehicle` has no error return. -/
theorem construction_errors_are_explicit :
    (∃ msg, track.NewModularTrack 0.2 0.1 ['S', 'X', 'L', 'L'] = .error msg) ∧
    (∃ msg, track.NewTrack 0 0.1 straight4 = .error msg) ∧
    (∃ msg, track.NewTrack 0.2 0.1 straight4 = .error msg) ∧
    robo.NewVehicle "zz" 1 = none := by
  have h1 : track.NewModularTrack 0.2 0.1 ['S', 'X', 'L', 'L']
      = .error "Unsupported character in track topology string" := rfl
  have h2 : track.NewTrack 0 0.1 straight4 = .error "Invalid track width" := by
    simp only [track.NewTrack]
    rw [if_neg (show ¬(straight4.length < 4) by norm_num [straight4])]
    rw [if_pos (show (0:ℝ) ≤ 0 by norm_num)]
  have htrk : track.mkTrack 0.2 0.1 straight4 = trk4 := rfl
  have hclose : ¬ (phys.RadiansAreNear
        (trk4.entryPoses.getD 0 { X := 0, Y := 0, Theta := 0 }).Theta
        (trk4.entryPoses.getD straight4.length { X := 0, Y := 0, Theta := 0 }).Theta
        track.TrackRadiansAreEqualTol ∧
      phys.MetersAreNear
        (trk4.entryPoses.getD 0 { X := 0, Y := 0, Theta := 0 }).X
        (trk4.entryPoses.getD straight4.length { X := 0, Y := 0, Theta := 0 }).X
        track.TrackMetersAreEqualTol ∧
      phys.MetersAreNear
        (trk4.entryPoses.getD 0 { X := 0, Y := 0, Theta := 0 }).Y
        (trk4.entryPoses.getD straight4.length { X := 0, Y := 0, Theta := 0 }).Y
        track.TrackMetersAreEqualTol) := by
    rw [trk4_entryPoses]
    intro hcond
    have hy := hcond.2.1
    rw [phys.MetersAreNear, phys.isNear, track.TrackMetersAreEqualTol] at hy
    simp only [straight4, List.length_cons, List.length_nil, List.getD] at hy
    norm_num at hy
    rw [abs_of_pos (show (0:ℝ) < 1/1000000 by norm_num)] at hy
    norm_num at hy
  have h3 : track.NewTrack 0.2 0.1 straight4 = .error "Track is not a loop" := by
    simp only [track.NewTrack]
    rw [if_neg (show ¬(straight4.length < 4) by norm_num [straight4])]
    rw [if_neg (show ¬((0.2:ℝ) ≤ 0) by norm_num)]
    rw [if_neg (show ¬((0.1:ℝ) = 0) by norm_num)]
    rw [if_neg (show ¬((0.1:ℝ) < 0) by norm_num)]
    rw [htrk]
    rw [if_neg hclose]
  exact ⟨⟨_, h1⟩, ⟨_, h2⟩, ⟨_, h3⟩, rfl⟩

/-- **C10**: constructing a track with `maxCofs = 0` does not fail: the
maximum lateral offset defaults to `width / 2`, `MaxCofs()` returns the
defaulted value, and the simulator tick clamps an over-large commanded
lateral offset to exactly this value. -/
theorem newTrack_zero_maxCofs_defaults (width : ℝ) (pieces : List track.RoadPiece)
    (hw : 0 < width) (hn : ¬ pieces.length < 4)
    (hclose : phys.RadiansAreNear
        ((track.mkTrack width (width / 2) pieces).entryPoses.getD 0
          { X := 0, Y := 0, Theta := 0 }).Theta
        ((track.mkTrack width (width / 2) pieces).entryPoses.getD pieces.length
          { X := 0, Y := 0, Theta := 0 }).Theta
        track.TrackRadiansAreEqualTol ∧
      phys.MetersAreNear
        ((track.mkTrack width (width / 2) pieces).entryPoses.getD 0
          { X := 0, Y := 0, Theta := 0 }).X
        ((track.mkTrack width (width / 2) pieces).entryPoses.getD pieces.length
          { X := 0, Y := 0, Theta := 0 }).X
        track.TrackMetersAreEqualTol ∧
      phys.MetersAreNear
        ((track.mkTrack width (width / 2) pieces).entryPoses.getD 0
          { X := 0, Y := 0, Theta := 0 }).Y
        ((track.mkTrack width (width / 2) pieces).entryPoses.getD pieces.length
          { X := 0, Y := 0, Theta := 0 }).Y
        track.TrackMetersAreEqualTol) :
    ∃ t, track.NewTrack width 0 pieces = .ok t ∧ t.MaxCofs = width / 2 ∧
      ∀ (dt : phys.SimTime) (veh : robo.Vehicle), veh.cmdCofs > width / 2 →
        (robo.tickOneVeh dt t veh).cmdCofs = width / 2 := by
  refine ⟨track.mkTrack width (width / 2) pieces, ?_, rfl, ?_⟩
  · simp only [track.NewTrack]
    rw [if_neg hn, if_neg (not_le.mpr hw), if_pos rfl,
      if_neg (not_lt.mpr (by positivity)), if_pos hclose]
    simp only [if_true]
  · intro dt veh hcmd
    have hmax : (track.mkTrack width (width / 2) pieces).MaxCofs = width / 2 := rfl
    simp only [robo.tickOneVeh]
    rw [hmax]
    rw [if_neg (not_lt.mpr (by linarith)), if_pos hcmd]

theorem sq_dp : rpCurveL1.DeltaPose = { X := 1, Y := 1, Theta := Real.pi / 2 } := by
  have hpi2 : (0:ℝ) < Real.pi / 2 := by positivity
  have hns : ¬ rpCurveL1.IsStraight := hpi2.ne'
  have hcr : rpCurveL1.CurveRadius 0 = 1 := by
    rw [track.RoadPiece.CurveRadius, if_neg hns,
      if_neg (show ¬ rpCurveL1.dAngle < 0 from not_lt.mpr hpi2.le)]
    show Real.pi / 2 / |Real.pi / 2| - 0 = 1
    rw [abs_of_pos hpi2, div_self hpi2.ne']
    norm_num
  have ha : -(Real.pi / 2) + rpCurveL1.cenLen / 1 = 0 := by
    show -(Real.pi / 2) + Real.pi / 2 / 1 = 0
    norm_num
  rw [track.RoadPiece.DeltaPose, if_neg hns]
  simp only [hcr]
  rw [if_pos (show rpCurveL1.dAngle > 0 from hpi2)]
  simp only [phys.PolarPoint.ToPoint, ha, phys.NormalizeRadians_zero,
    Real.cos_zero, Real.sin_zero]
  show ({ X := 1 * 1, Y := 1 * 0 + 1, Theta := Real.pi / 2 } : phys.Pose)
      = { X := 1, Y := 1, Theta := Real.pi / 2 }
  norm_num

theorem normRad_pi2 : phys.NormalizeRadians (Real.pi / 2) = Real.pi / 2 :=
  phys.NormalizeRadians_of_mem _ (by linarith [Real.pi_pos]) (by linarith [Real.pi_pos])

theorem normRad_pi : phys.NormalizeRadians Real.pi = Real.pi :=
  phys.NormalizeRadians_of_mem _ (by linarith [Real.pi_pos]) le_rfl

theorem normRad_add_2 : phys.NormalizeRadians (Real.pi / 2 + Real.pi / 2) = Real.pi := by
  rw [show Real.pi / 2 + Real.pi / 2 = Real.pi by ring]
  exact phys.NormalizeRadians_of_mem _ (by linarith [Real.pi_pos]) le_rfl

theorem normRad_add_3 : phys.NormalizeRadians (Real.pi + Real.pi / 2) = -(Real.pi / 2) := by
  rw [phys.NormalizeRadians]
  rw [phys.normRadUp_of_ge _ (by linarith [Real.pi_pos])]
  rw [phys.normRadDown, if_pos (by linarith [Real.pi_pos])]
  rw [show Real.pi + Real.pi / 2 - 2 * Real.pi = -(Real.pi / 2) by ring]
  exact phys.normRadDown_of_le _ (by linarith [Real.pi_pos])

theorem normRad_add_4 : phys.NormalizeRadians (-(Real.pi / 2) + Real.pi / 2) = 0 := by
  rw [neg_add_cancel]
  exact phys.NormalizeRadians_zero

theorem sq_adv_1 : (({ X := 0, Y := 0, Theta := 0 } : phys.Pose).AdvancePose
    { X := 1, Y := 1, Theta := Real.pi / 2 }) = { X := 1, Y := 1, Theta := Real.pi / 2 } := by
  rw [phys.Pose.AdvancePose_eq]
  simp [normRad_pi2]

theorem sq_adv_2 : (({ X := 1, Y := 1, Theta := Real.pi / 2 } : phys.Pose).AdvancePose
    { X := 1, Y := 1, Theta := Real.pi / 2 }) = { X := 0, Y := 2, Theta := Real.pi } := by
  rw [phys.Pose.AdvancePose_eq]
  simp [normRad_add_2, normRad_pi, Real.sin_pi_div_two, Real.cos_pi_div_two]
  norm_num

theorem sq_adv_3 : (({ X := 0, Y := 2, Theta := Real.pi } : phys.Pose).AdvancePose
    { X := 1, Y := 1, Theta := Real.pi / 2 }) = { X := -1, Y := 1, Theta := -(Real.pi / 2) } := by
  rw [phys.Pose.AdvancePose_eq]
  simp [normRad_add_3, Real.sin_pi, Real.cos_pi]
  norm_num

theorem sq_adv_4 : (({ X := -1, Y := 1, Theta := -(Real.pi / 2) } : phys.Pose).AdvancePose
    { X := 1, Y := 1, Theta := Real.pi / 2 }) = { X := 0, Y := 0, Theta := 0 } := by
  rw [phys.Pose.AdvancePose_eq]
  simp [normRad_add_4, phys.NormalizeRadians_zero, Real.sin_pi_div_two,
    Real.cos_pi_div_two, Real.cos_neg, Real.sin_neg]

theorem sq_entryPoses : (track.mkTrack 0.2 (0.2 / 2) sqPieces).entryPoses =
    [{ X := 0, Y := 0, Theta := 0 }, { X := 1, Y := 1, Theta := Real.pi / 2 },
     { X := 0, Y := 2, Theta := Real.pi }, { X := -1, Y := 1, Theta := -(Real.pi / 2) },
     { X := 0, Y := 0, Theta := 0 }] := by
  simp only [track.mkTrack, sqPieces, List.scanl, sq_dp, sq_adv_1, sq_adv_2,
    sq_adv_3, sq_adv_4]

/-- Witness for C10 at a concrete input: the square 4-curve track with
width 0.2 and `maxCofs` argument 0. -/
theorem newTrack_zero_maxCofs_defaults_witness :
    ∃ t, track.NewTrack 0.2 0 sqPieces = .ok t ∧ t.MaxCofs = 0.1 ∧
      (robo.tickOneVeh 10000000 t vehC10).cmdCofs = 0.1 := by
  obtain ⟨t, h1, h2, h3⟩ := newTrack_zero_maxCofs_defaults 0.2 sqPieces
    (by norm_num) (by norm_num [sqPieces]) (by
      rw [sq_entryPoses]
      simp only [sqPieces, List.length_cons, List.length_nil, List.getD]
      norm_num [phys.RadiansAreNear, phys.MetersAreNear, phys.isNear])
  refine ⟨t, h1, by rw [h2]; norm_num, ?_⟩
  have h4 := h3 10000000 vehC10 (by norm_num [vehC10])
  rw [h4]
  norm_num

theorem trk4_rpi_0 : trk4.RpiAndRpDofs 0 = (0, 0) := by
  rw [track.Track.RpiAndRpDofs]
  norm_num [track.rpiSearch, trk4_entryDofs, trk4_pieces, straight4,
    track.Track.Rp, track.RoadPiece.CenLen, rpStraight1, List.getD]

theorem trk4_maxCofs : trk4.MaxCofs = 0.1 := rfl

theorem vehC1_facing : vehC1.IsFacingTrackwise := by
  show |(0:ℝ)| ≤ Real.pi / 2
  rw [abs_zero]
  positivity

theorem curveRadius_straight1 : rpStraight1.CurveRadius 0 = 0 := by
  have hs : rpStraight1.IsStraight := rfl
  rw [track.RoadPiece.CurveRadius, if_pos hs]

theorem tickC1_eval :
    (robo.tickOneVeh 10000000 trk4 vehC1).desDspd = 0.02 ∧
    (robo.tickOneVeh 10000000 trk4 vehC1).curVel.D = 0.02 ∧
    (robo.tickOneVeh 10000000 trk4 vehC1).curPose.Dofs = 0.0003 := by
  have hd1 : vehC1.desDspd = 0 := rfl
  have hd2 : vehC1.cmdDspd = 1 := rfl
  have hd3 : vehC1.cmdDacl = 2 := rfl
  have hd4 : vehC1.cmdCofs = 0 := rfl
  have hd5 : vehC1.cmdCspd = 0.1 := rfl
  have hd6 : vehC1.desCofs = 0 := rfl
  have hd7 : vehC1.curPose.Dofs = 0 := rfl
  have hd8 : vehC1.curPose.Cofs = 0 := rfl
  simp only [robo.tickOneVeh, hd1, hd2, hd3, hd4, hd5, hd6, hd7, hd8,
    trk4_rpi_0, trk4_maxCofs, trk4_Rp0, curveRadius_straight1]
  rw [if_pos vehC1_facing, if_pos vehC1_facing]
  norm_num
  rw [track.Track.NormalizeDofs_of_mem trk4 _ (by norm_num)
    (by rw [trk4_cenLen]; norm_num)]

/-- **C1** (counterexample): in the claimed scenario (at rest, commanded to
1 m/s at 2 m/s^2, `dt = 0.01 s`, straight track) one tick advances the
distance offset by `0.0003` m, not `0.0001` m: the code computes the
displacement with the post-ramp speed `0.02`, so the increment is
`0.02*0.01 + (2/2)*0.01^2 = 0.0003`, which is not within the repository's
`1e-6` tolerance of the claimed `0.0001`. -/
theorem tick_increment_contradicts_claim :
    (robo.tickOneVeh 10000000 trk4 vehC1).curPose.Dofs - vehC1.curPose.Dofs = 0.0003 ∧
    ¬ phys.MetersAreNear
        ((robo.tickOneVeh 10000000 trk4 vehC1).curPose.Dofs - vehC1.curPose.Dofs)
        0.0001 track.TrackMetersAreEqualTol := by
  have h := tickC1_eval
  have hd : vehC1.curPose.Dofs = 0 := rfl
  have hdiff : (robo.tickOneVeh 10000000 trk4 vehC1).curPose.Dofs - vehC1.curPose.Dofs
      = 0.0003 := by
    rw [h.2.2, hd]
    norm_num
  refine ⟨hdiff, ?_⟩
  intro hcontra
  rw [hdiff, phys.MetersAreNear, phys.isNear, track.TrackMetersAreEqualTol] at hcontra
  rw [show (0.0003:ℝ) - 0.0001 = 0.0002 by norm_num] at hcontra
  rw [abs_of_pos (show (0:ℝ) < 0.0002 by norm_num)] at hcontra
  rw [abs_of_pos (show (0:ℝ) < 1e-6 by norm_num)] at hcontra
  norm_num at hcontra

/-- **C1** (amended): in the claimed scenario the post-tick forward speed is
`0.02` m/s (both the desired speed and the track-space velocity), and the
distance-offset increment is `0.0003` m, matching `v*dt + (1/2)*a*dt^2`
where `v = 0.02` is the post-ramp speed of this tick (not the speed at the
start of the tick). -/
theorem tick_scenario_amended :
    (robo.tickOneVeh 10000000 trk4 vehC1).desDspd = 0.02 ∧
    (robo.tickOneVeh 10000000 trk4 vehC1).curVel.D = 0.02 ∧
    (robo.tickOneVeh 10000000 trk4 vehC1).curPose.Dofs - vehC1.curPose.Dofs = 0.0003 ∧
    (0.0003:ℝ) = 0.02 * 0.01 + (2 / 2) * (0.01 * 0.01) := by
  have h := tickC1_eval
  have hd : vehC1.curPose.Dofs = 0 := rfl
  refine ⟨h.1, h.2.1, ?_, by norm_num⟩
  rw [h.2.2, hd]
  norm_num

theorem trk4_rpi_39 : trk4.RpiAndRpDofs 3.9 = (3, 0.9) := by
  rw [track.Track.RpiAndRpDofs]
  norm_num [track.rpiSearch, trk4_entryDofs, trk4_pieces, straight4,
    track.Track.Rp, track.RoadPiece.CenLen, rpStraight1, List.getD]

theorem trk4_rpi_02 : trk4.RpiAndRpDofs 0.2 = (0, 0.2) := by
  rw [track.Track.RpiAndRpDofs]
  norm_num [track.rpiSearch, trk4_entryDofs, trk4_pieces, straight4,
    track.Track.Rp, track.RoadPiece.CenLen, rpStraight1, List.getD]

theorem trk4_facing_0 : trk4.isFacingTrackwise 0 := by
  rw [track.Track.isFacingTrackwise, abs_zero]
  positivity

theorem trk4_not_facing_pi : ¬ trk4.isFacingTrackwise Real.pi := by
  rw [track.Track.isFacingTrackwise, abs_of_pos Real.pi_pos]
  intro hcontra
  linarith [Real.pi_pos]

theorem trk4_Rp1 : trk4.Rp 1 = rpStraight1 := rfl

theorem trk4_Rp2 : trk4.Rp 2 = rpStraight1 := rfl

theorem trk4_numRp : trk4.NumRp = 4 := rfl

theorem len_straight1 : rpStraight1.Len 0 = 1 := by
  rw [track.RoadPiece.Len]
  norm_num [rpStraight1]

theorem cenLen_straight1 : rpStraight1.CenLen = 1 := rfl

/-- **C6**: on the straight 4-piece 1-meter test track, the driving
distance from the finish line facing trackwise to `dofs = 3.9` is `3.9`,
and from the finish line facing counter-trackwise to `dofs = 0.2` is `3.8`:
`DriveDist` correctly crosses the finish line and sums over multiple
pieces. -/
theorem driveDist_scenarios :
    trk4.DriveDist { Dofs := 0, Cofs := 0, DAngle := 0 } 3.9 = 3.9 ∧
    trk4.DriveDist { Dofs := 0, Cofs := 0, DAngle := Real.pi } 0.2 = 3.8 := by
  constructor
  · rw [track.Track.DriveDist]
    rw [if_pos trk4_facing_0]
    simp only [trk4_rpi_0, trk4_rpi_39, trk4_numRp]
    rw [if_neg (by norm_num)]
    norm_num [Int.toNat_natCast]
    rw [show List.range (Int.toNat 3) = [0, 1, 2] from rfl]
    norm_num [List.foldl_cons, List.foldl_nil, trk4_Rp0, trk4_Rp1, trk4_Rp2,
      trk4_Rp3, len_straight1, cenLen_straight1]
  · rw [track.Track.DriveDist]
    rw [if_neg trk4_not_facing_pi]
    simp only [trk4_rpi_0, trk4_rpi_02, trk4_numRp]
    rw [if_neg (by norm_num)]
    norm_num [Int.toNat_natCast]
    rw [show List.range (Int.toNat 4) = [0, 1, 2, 3] from rfl]
    norm_num [List.foldl_cons, List.foldl_nil, trk4_Rp0, trk4_Rp1, trk4_Rp2,
      trk4_Rp3, len_straight1, cenLen_straight1]

theorem robo.mem_pairList {n v0 v1 : ℕ} (h01 : v0 < v1) (hn : v1 < n) :
    (v0, v1) ∈ robo.pairList n := by
  rw [robo.pairList, List.mem_flatMap]
  refine ⟨v0, List.mem_range.mpr (lt_trans h01 hn), ?_⟩
  rw [List.mem_map]
  exact ⟨v1, List.mem_range'_1.mpr ⟨h01, by omega⟩, rfl⟩

theorem robo.pairList_nodup (n : ℕ) : (robo.pairList n).Nodup := by
  rw [robo.pairList, List.nodup_flatMap]
  constructor
  · intro v0 _
    exact (List.nodup_range' _ _).map (fun a b hab => congrArg Prod.snd hab)
  · have hdisj : ∀ a b : ℕ, a ≠ b →
        ((List.range' (a + 1) (n - (a + 1))).map fun v1 => (a, v1)).Disjoint
          ((List.range' (b + 1) (n - (b + 1))).map fun v1 => (b, v1)) := by
      intro a b hab pr hpa hpb
      rw [List.mem_map] at hpa hpb
      obtain ⟨x, _, hx⟩ := hpa
      obtain ⟨y, _, hy⟩ := hpb
      exact hab (congrArg Prod.fst (hx.trans hy.symm))
    exact (List.nodup_range n).imp (fun hab => hdisj _ _ hab)

theorem robo.mem_split_of_nodup {α : Type} {l : List α} {a : α}
    (h : a ∈ l) (hnd : l.Nodup) :
    ∃ l1 l2, l = l1 ++ a :: l2 ∧ a ∉ l1 ∧ a ∉ l2 := by
  induction l with
  | nil => cases h
  | cons x xs ih =>
      rcases List.mem_cons.mp h with hxa | hmem
      · refine ⟨[], xs, by simp [hxa], List.not_mem_nil _, ?_⟩
        rw [hxa]
        exact (List.nodup_cons.mp hnd).1
      · obtain ⟨l1, l2, heq, h1, h2⟩ := ih hmem (List.nodup_cons.mp hnd).2
        refine ⟨x :: l1, l2, by simp [heq], ?_, h2⟩
        rw [List.mem_cons]
        rintro (hax | hal)
        · exact (List.nodup_cons.mp hnd).1 (hax ▸ hmem)
        · exact h1 hal

theorem robo.pairStep_maxDimension (now : phys.SimTime) (trk : track.Track)
    (inputs : ℕ → robo.vehCollisionInputs) (cd : robo.CollisionDetector) (pr : ℕ × ℕ) :
    (robo.pairStep now trk inputs cd pr).maxDimension = cd.maxDimension := by
  simp only [robo.pairStep]
  split
  · rfl
  · split
    · split <;> rfl
    · rfl

theorem robo.pairStep_cur_ne (now : phys.SimTime) (trk : track.Track)
    (inputs : ℕ → robo.vehCollisionInputs) (cd : robo.CollisionDetector)
    (pr q : ℕ × ℕ) (hq : q ≠ pr) :
    (robo.pairStep now trk inputs cd pr).curCollisions q = cd.curCollisions q := by
  simp only [robo.pairStep]
  split
  · simp [hq]
  · split
    · split
      · rfl
      · simp [hq]
    · simp [hq]

theorem robo.pairStep_new_ne (now : phys.SimTime) (trk : track.Track)
    (inputs : ℕ → robo.vehCollisionInputs) (cd : robo.CollisionDetector)
    (pr q : ℕ × ℕ) (hq : q ≠ pr) :
    (robo.pairStep now trk inputs cd pr).newCollisions q = cd.newCollisions q := by
  simp only [robo.pairStep]
  split
  · rfl
  · split
    · split
      · rfl
      · simp [hq]
    · rfl

theorem robo.foldl_pairStep_maxDimension (now : phys.SimTime) (trk : track.Track)
    (inputs : ℕ → robo.vehCollisionInputs) (l : List (ℕ × ℕ))
    (cd : robo.CollisionDetector) :
    (l.foldl (robo.pairStep now trk inputs) cd).maxDimension = cd.maxDimension := by
  induction l generalizing cd with
  | nil => rfl
  | cons x xs ih =>
      rw [List.foldl_cons, ih, robo.pairStep_maxDimension]

theorem robo.foldl_pairStep_cur_not_mem (now : phys.SimTime) (trk : track.Track)
    (inputs : ℕ → robo.vehCollisionInputs) (l : List (ℕ × ℕ))
    (cd : robo.CollisionDetector) (pr : ℕ × ℕ) (h : pr ∉ l) :
    (l.foldl (robo.pairStep now trk inputs) cd).curCollisions pr = cd.curCollisions pr := by
  induction l generalizing cd with
  | nil => rfl
  | cons x xs ih =>
      rw [List.foldl_cons, ih _ (fun hmem => h (List.mem_cons_of_mem x hmem)),
        robo.pairStep_cur_ne _ _ _ _ _ _
          (fun hpx => h (by rw [hpx]; exact List.mem_cons_self x xs))]

theorem robo.foldl_pairStep_new_not_mem (now : phys.SimTime) (trk : track.Track)
    (inputs : ℕ → robo.vehCollisionInputs) (l : List (ℕ × ℕ))
    (cd : robo.CollisionDetector) (pr : ℕ × ℕ) (h : pr ∉ l) :
    (l.foldl (robo.pairStep now trk inputs) cd).newCollisions pr = cd.newCollisions pr := by
  induction l generalizing cd with
  | nil => rfl
  | cons x xs ih =>
      rw [List.foldl_cons, ih _ (fun hmem => h (List.mem_cons_of_mem x hmem)),
        robo.pairStep_new_ne _ _ _ _ _ _
          (fun hpx => h (by rw [hpx]; exact List.mem_cons_self x xs))]

theorem robo.pairStep_cur_self (now : phys.SimTime) (trk : track.Track)
    (inputs : ℕ → robo.vehCollisionInputs) (cd : robo.CollisionDetector) (pr : ℕ × ℕ) :
    (robo.pairStep now trk inputs cd pr).curCollisions pr =
      if trk.DofsDist (inputs pr.1).dofs (inputs pr.2).dofs > cd.maxDimension pr then none
      else if (robo.calcPointOfImpact (inputs pr.1) (inputs pr.2)).1 then
        match cd.curCollisions pr with
        | some e => some e
        | none => some (robo.newCollisionEvent now inputs pr)
      else none := by
  simp only [robo.pairStep]
  split
  · simp
  · split
    · cases hcur : cd.curCollisions pr with
      | some e => simpa using hcur
      | none => simp
    · simp

theorem robo.pairStep_new_self (now : phys.SimTime) (trk : track.Track)
    (inputs : ℕ → robo.vehCollisionInputs) (cd : robo.CollisionDetector) (pr : ℕ × ℕ) :
    (robo.pairStep now trk inputs cd pr).newCollisions pr =
      if trk.DofsDist (inputs pr.1).dofs (inputs pr.2).dofs > cd.maxDimension pr then
        cd.newCollisions pr
      else if (robo.calcPointOfImpact (inputs pr.1) (inputs pr.2)).1 then
        match cd.curCollisions pr with
        | some _ => cd.newCollisions pr
        | none => some (robo.newCollisionEvent now inputs pr)
      else cd.newCollisions pr := by
  simp only [robo.pairStep]
  split
  · rfl
  · split
    · cases hcur : cd.curCollisions pr with
      | some e => rfl
      | none => simp
    · rfl

/-- The net effect of one `updateHelper` call on the current-collision
entry of a fixed pair `(v0, v1)` with `v0 < v1 < n`: the broad-phase
prune deletes it, otherwise the narrow phase decides between keeping the
stored event, creating a fresh one stamped `now`, and deleting. -/
theorem robo.updateHelper_cur_eq (now : phys.SimTime) (trk : track.Track) (n : ℕ)
    (inputs : ℕ → robo.vehCollisionInputs) (cd : robo.CollisionDetector)
    (v0 v1 : ℕ) (h01 : v0 < v1) (hn : v1 < n) :
    (robo.updateHelper now trk n inputs cd).curCollisions (v0, v1) =
      (if trk.DofsDist (inputs v0).dofs (inputs v1).dofs
          > cd.maxDimension (v0, v1) then none
      else if (robo.calcPointOfImpact (inputs v0) (inputs v1)).1 then
        match cd.curCollisions (v0, v1) with
        | some e => some e
        | none => some (robo.newCollisionEvent now inputs (v0, v1))
      else none) ∧
    (robo.updateHelper now trk n inputs cd).newCollisions (v0, v1) =
      (if trk.DofsDist (inputs v0).dofs (inputs v1).dofs
          > cd.maxDimension (v0, v1) then cd.newCollisions (v0, v1)
      else if (robo.calcPointOfImpact (inputs v0) (inputs v1)).1 then
        match cd.curCollisions (v0, v1) with
        | some _ => cd.newCollisions (v0, v1)
        | none => some (robo.newCollisionEvent now inputs (v0, v1))
      else cd.newCollisions (v0, v1)) := by
  obtain ⟨l1, l2, heq, hnot1, hnot2⟩ :=
    robo.mem_split_of_nodup (robo.mem_pairList h01 hn) (robo.pairList_nodup n)
  rw [robo.updateHelper, heq, List.foldl_append, List.foldl_cons]
  set cdmid := l1.foldl (robo.pairStep now trk inputs) cd with hmid
  have hmaxmid : cdmid.maxDimension = cd.maxDimension :=
    robo.foldl_pairStep_maxDimension now trk inputs l1 cd
  have hcurmid : cdmid.curCollisions (v0, v1) = cd.curCollisions (v0, v1) :=
    robo.foldl_pairStep_cur_not_mem now trk inputs l1 cd (v0, v1) hnot1
  have hnewmid : cdmid.newCollisions (v0, v1) = cd.newCollisions (v0, v1) :=
    robo.foldl_pairStep_new_not_mem now trk inputs l1 cd (v0, v1) hnot1
  constructor
  · rw [robo.foldl_pairStep_cur_not_mem now trk inputs l2 _ (v0, v1) hnot2,
      robo.pairStep_cur_self, hmaxmid, hcurmid]
  · rw [robo.foldl_pairStep_new_not_mem now trk inputs l2 _ (v0, v1) hnot2,
      robo.pairStep_new_self, hmaxmid, hcurmid, hnewmid]

/-- **C2**: collision event identity.  For a pair `(v0, v1)` within
broad-phase range: (1) if a current event `e` is stored and the rectangles
still overlap, the update leaves the stored event (and hence its
`ImpactTime`) unchanged; (2) if the rectangles no longer overlap, the pair
no longer has a current entry (so the current-collisions query stops
returning it); (3) a fresh overlap with no stored entry produces a new
event stamped with the current simulated time. -/
theorem collision_event_identity (now : phys.SimTime) (trk : track.Track) (n : ℕ)
    (inputs : ℕ → robo.vehCollisionInputs) (cd : robo.CollisionDetector)
    (v0 v1 : ℕ) (h01 : v0 < v1) (hn : v1 < n)
    (hnear : trk.DofsDist (inputs v0).dofs (inputs v1).dofs ≤ cd.maxDimension (v0, v1)) :
    (∀ e, cd.curCollisions (v0, v1) = some e →
      (robo.calcPointOfImpact (inputs v0) (inputs v1)).1 = true →
      (robo.updateHelper now trk n inputs cd).curCollisions (v0, v1) = some e) ∧
    ((robo.calcPointOfImpact (inputs v0) (inputs v1)).1 = false →
      (robo.updateHelper now trk n inputs cd).curCollisions (v0, v1) = none) ∧
    (cd.curCollisions (v0, v1) = none →
      (robo.calcPointOfImpact (inputs v0) (inputs v1)).1 = true →
      (robo.updateHelper now trk n inputs cd).curCollisions (v0, v1)
          = some (robo.newCollisionEvent now inputs (v0, v1)) ∧
        (robo.newCollisionEvent now inputs (v0, v1)).ImpactTime = now) := by
  have h := (robo.updateHelper_cur_eq now trk n inputs cd v0 v1 h01 hn).1
  rw [if_neg (not_lt.mpr hnear)] at h
  refine ⟨?_, ?_, ?_⟩
  · intro e hcur hres
    rw [h, if_pos hres, hcur]
  · intro hres
    rw [h, if_neg (by rw [hres]; simp)]
  · intro hcur hres
    exact ⟨by rw [h, if_pos hres, hcur], rfl⟩

/-- **C5**: broad-phase pruning.  With the per-pair maximum dimension
precomputed by `NewCollisionDetector` (the max of both vehicles' lengths
and widths), any pair whose shortest cyclic distance-offset separation
exceeds it gets no new collision event and loses any existing current
entry — with no assumption at all about the vehicles' Cartesian
rectangles, which may well overlap geometrically. -/
theorem collision_prune_far (now : phys.SimTime) (trk : track.Track) (n : ℕ)
    (inputs : ℕ → robo.vehCollisionInputs) (vehs : List robo.Vehicle)
    (cur new0 : ℕ × ℕ → Option robo.CollisionEvent)
    (v0 v1 : ℕ) (veha vehb : robo.Vehicle) (h01 : v0 < v1) (hn : v1 < n)
    (ha : vehs[v0]? = some veha) (hb : vehs[v1]? = some vehb)
    (hfar : trk.DofsDist (inputs v0).dofs (inputs v1).dofs >
      max (max veha.Length vehb.Length) (max veha.Width vehb.Width)) :
    (robo.updateHelper now trk n inputs
        { maxDimension := (robo.NewCollisionDetector trk vehs).maxDimension
          curCollisions := cur
          newCollisions := new0 }).curCollisions (v0, v1) = none ∧
    (robo.updateHelper now trk n inputs
        { maxDimension := (robo.NewCollisionDetector trk vehs).maxDimension
          curCollisions := cur
          newCollisions := new0 }).newCollisions (v0, v1) = new0 (v0, v1) := by
  have hmax : (robo.NewCollisionDetector trk vehs).maxDimension (v0, v1)
      = max (max veha.Length vehb.Length) (max veha.Width vehb.Width) := by
    simp [robo.NewCollisionDetector, ha, hb, h01]
  have h := robo.updateHelper_cur_eq now trk n inputs
    { maxDimension := (robo.NewCollisionDetector trk vehs).maxDimension
      curCollisions := cur
      newCollisions := new0 } v0 v1 h01 hn
  have hfar2 : trk.DofsDist (inputs v0).dofs (inputs v1).dofs >
      ({ maxDimension := (robo.NewCollisionDetector trk vehs).maxDimension
         curCollisions := cur
         newCollisions := new0 } : robo.CollisionDetector).maxDimension (v0, v1) := by
    show trk.DofsDist (inputs v0).dofs (inputs v1).dofs >
      (robo.NewCollisionDetector trk vehs).maxDimension (v0, v1)
    rw [hmax]
    exact hfar
  exact ⟨by rw [h.1, if_pos hfar2], by rw [h.2, if_pos hfar2]⟩

theorem adv_origin_pt (x y : ℝ) :
    ((({ X := 0, Y := 0, Theta := 0 } : phys.Pose).AdvancePose
      { X := x, Y := y, Theta := 0 })).toPoint = { X := x, Y := y } := by
  rw [phys.Pose.AdvancePose_eq]
  simp

theorem rel_origin_pt (x y : ℝ) :
    ((({ X := x, Y := y, Theta := 0 } : phys.Pose).RelativeTo
      { X := 0, Y := 0, Theta := 0 })).toPoint = { X := x, Y := y } := by
  rw [phys.Pose.RelativeTo_eq]
  simp

theorem cornerHits_C2_ab :
    robo.cornerHits (inputsC2 0) (inputsC2 1) =
      [{ X := 0.02, Y := 0.01 }, { X := 0.02, Y := -0.01 },
       { X := -0.02, Y := 0.01 }, { X := -0.02, Y := -0.01 }] := by
  have hp0 : (inputsC2 0).pose = { X := 0, Y := 0, Theta := 0 } := rfl
  have hl0 : (inputsC2 0).len = 0.08 := rfl
  have hw0 : (inputsC2 0).width = 0.044 := rfl
  have hp1 : (inputsC2 1).pose = { X := 0, Y := 0, Theta := 0 } := rfl
  have hl1 : (inputsC2 1).len = 0.04 := rfl
  have hw1 : (inputsC2 1).width = 0.02 := rfl
  rw [robo.cornerHits, robo.ovCornersAbs]
  rw [hp0, hl0, hw0, hp1, hl1, hw1]
  rw [adv_origin_pt, adv_origin_pt, adv_origin_pt, adv_origin_pt]
  norm_num [List.filter_cons, List.filter_nil, rel_origin_pt]

theorem cornerHits_C2_ba :
    robo.cornerHits (inputsC2 1) (inputsC2 0) = [] := by
  have hp0 : (inputsC2 0).pose = { X := 0, Y := 0, Theta := 0 } := rfl
  have hl0 : (inputsC2 0).len = 0.08 := rfl
  have hw0 : (inputsC2 0).width = 0.044 := rfl
  have hp1 : (inputsC2 1).pose = { X := 0, Y := 0, Theta := 0 } := rfl
  have hl1 : (inputsC2 1).len = 0.04 := rfl
  have hw1 : (inputsC2 1).width = 0.02 := rfl
  rw [robo.cornerHits, robo.ovCornersAbs]
  rw [hp0, hl0, hw0, hp1, hl1, hw1]
  rw [adv_origin_pt, adv_origin_pt, adv_origin_pt, adv_origin_pt]
  norm_num [List.filter_cons, List.filter_nil, rel_origin_pt]

theorem calcPOI_C2_true :
    (robo.calcPointOfImpact (inputsC2 0) (inputsC2 1)).1 = true := by
  rw [robo.calcPointOfImpact, cornerHits_C2_ab, cornerHits_C2_ba]
  norm_num

theorem dofsDist_C2 : trk4.DofsDist (inputsC2 0).dofs (inputsC2 1).dofs = 0 := by
  have h0 : (inputsC2 0).dofs = 0 := rfl
  have h1 : (inputsC2 1).dofs = 0 := rfl
  rw [h0, h1, track.Track.DofsDist, trk4_cenLen]
  norm_num

/-- Witness for C2 at a concrete input: two overlapping vehicles at the
same pose with no stored event; one update creates an event stamped with
the current time `5`. -/
theorem collision_event_identity_witness :
    trk4.DofsDist (inputsC2 0).dofs (inputsC2 1).dofs ≤ cdC2.maxDimension (0, 1) ∧
    cdC2.curCollisions (0, 1) = none ∧
    (robo.calcPointOfImpact (inputsC2 0) (inputsC2 1)).1 = true ∧
    (robo.updateHelper 5 trk4 2 inputsC2 cdC2).curCollisions (0, 1)
        = some (robo.newCollisionEvent 5 inputsC2 (0, 1)) ∧
    (robo.newCollisionEvent 5 inputsC2 (0, 1)).ImpactTime = 5 := by
  have hnear : trk4.DofsDist (inputsC2 0).dofs (inputsC2 1).dofs
      ≤ cdC2.maxDimension (0, 1) := by
    rw [dofsDist_C2]
    norm_num [cdC2]
  have h := collision_event_identity 5 trk4 2 inputsC2 cdC2 0 1
    (by norm_num) (by norm_num) hnear
  have h3 := h.2.2 rfl calcPOI_C2_true
  exact ⟨hnear, rfl, calcPOI_C2_true, h3.1, h3.2⟩

theorem dofsDist_C5 : trk4.DofsDist (inputsC5 0).dofs (inputsC5 1).dofs = 2 := by
  have h0 : (inputsC5 0).dofs = 0 := rfl
  have h1 : (inputsC5 1).dofs = 2 := rfl
  rw [h0, h1, track.Track.DofsDist, trk4_cenLen]
  rw [show |(0:ℝ) - 2| = 2 from by
    rw [abs_of_nonpos (by norm_num : (0:ℝ) - 2 ≤ 0)]; norm_num]
  rw [if_neg (by norm_num : ¬((2:ℝ) > 4 / 2))]

/-- Witness for C5 at a concrete input: two `gs` vehicles (maximum pair
dimension `0.08`) at cyclic separation `2` on the 4-meter straight track;
the update removes the pair's pre-existing current entry and leaves its
(new)-collision entry untouched. -/
theorem collision_prune_far_witness :
    trk4.DofsDist (inputsC5 0).dofs (inputsC5 1).dofs >
      max (max vehGS.Length vehGS.Length) (max vehGS.Width vehGS.Width) ∧
    curC5 (0, 1) = some dummyEvent ∧
    (robo.updateHelper 7 trk4 2 inputsC5
        { maxDimension := (robo.NewCollisionDetector trk4 [vehGS, vehGS]).maxDimension
          curCollisions := curC5
          newCollisions := fun _ => none }).curCollisions (0, 1) = none ∧
    (robo.updateHelper 7 trk4 2 inputsC5
        { maxDimension := (robo.NewCollisionDetector trk4 [vehGS, vehGS]).maxDimension
          curCollisions := curC5
          newCollisions := fun _ => none }).newCollisions (0, 1) = none := by
  have hL : vehGS.Length = 0.08 := rfl
  have hW : vehGS.Width = 0.044 := rfl
  have hfar : trk4.DofsDist (inputsC5 0).dofs (inputsC5 1).dofs >
      max (max vehGS.Length vehGS.Length) (max vehGS.Width vehGS.Width) := by
    rw [dofsDist_C5, hL, hW, max_self, max_self,
      max_eq_left (by norm_num : (0.044:ℝ) ≤ 0.08)]
    norm_num
  have h := collision_prune_far 7 trk4 2 inputsC5 [vehGS, vehGS] curC5
    (fun _ => none) 0 1 vehGS vehGS (by norm_num) (by norm_num) rfl rfl hfar
  exact ⟨hfar, rfl, h.1, h.2⟩
